import Mathlib

/-!
Verification of the agent run-loop, task queue and finalization pipeline of the
skill-agent repository.  The Python source (`agent.py`,
`skills/planning/scripts/tools.py`, `skills/answer/scripts/verify_links.py`) is
shallowly embedded below: filesystem state (the `scratch/` working area) is an
explicit record, the OpenAI model together with skill scripts, the citation
judge LLM and the report uploader are oracle parameters, and Python exceptions
are an explicit error type threaded with `Except`-style results.
-/

namespace SkillAgent

/-! ## Python string helpers -/

/-- Characters Python `str.strip` / the `re` module class `\s` treats as
whitespace (ASCII fragment; the sources only handle ASCII here). -/
def pyWsChar (c : Char) : Bool :=
  c.toNat == 32 || (9 ≤ c.toNat && c.toNat ≤ 13)

/-- The opening curly bracket character. -/
def lbrace : Char := Char.ofNat 123

/-- The closing curly bracket character. -/
def rbrace : Char := Char.ofNat 125

/-- Lexicographic comparison of char lists by code point, Python `<=` on `str`. -/
def charListLe : List Char → List Char → Bool
  | [], _ => true
  | _ :: _, [] => false
  | a :: as, b :: bs =>
    if a.toNat < b.toNat then true
    else if b.toNat < a.toNat then false
    else charListLe as bs

/-- Python string `<=`. -/
def pyStrLe (a b : String) : Bool := charListLe a.toList b.toList

/-- Insert into a `pyStrLe`-sorted list. -/
def insertSorted (x : String) : List String → List String
  | [] => [x]
  | y :: ys => if pyStrLe x y then x :: y :: ys else y :: insertSorted x ys

/-- Python `sorted` on a list of strings (code-point order). -/
def sortStrings (l : List String) : List String := l.foldr insertSorted []

/-- One step of Python `str.replace(pat, repl)`: replace all non-overlapping
occurrences left to right.  `fuel` bounds the recursion (callers pass the
length of the subject, enough since every step consumes at least one char). -/
def replChars (pat repl : List Char) : Nat → List Char → List Char
  | 0, s => s
  | _, [] => []
  | fuel + 1, c :: rest =>
    if pat ≠ [] && pat.isPrefixOf (c :: rest) then
      repl ++ replChars pat repl fuel ((c :: rest).drop pat.length)
    else
      c :: replChars pat repl fuel rest

/-- Python `s.replace(pat, repl)` (for non-empty `pat`, the only use here). -/
def pyReplace (s pat repl : String) : String :=
  String.mk (replChars pat.toList repl.toList (s.length + 1) s.toList)

/-- Is `needle` a contiguous sublist of `hay`? -/
def infixOfChars (needle : List Char) : List Char → Bool
  | [] => needle.isEmpty
  | c :: rest => needle.isPrefixOf (c :: rest) || infixOfChars needle rest

/-- Python `needle in haystack` on strings (substring test). -/
def pySubstr (needle hay : String) : Bool :=
  infixOfChars needle.toList hay.toList

/-- Python `str.strip()` (ASCII whitespace). -/
def pyStrip (s : String) : String :=
  String.mk (((s.toList.dropWhile pyWsChar).reverse.dropWhile pyWsChar).reverse)

/-- Python `str.startswith`. -/
def pyStartsWith (s pre : String) : Bool := pre.toList.isPrefixOf s.toList

/-- Python `str.endswith`. -/
def pyEndsWith (s suf : String) : Bool := suf.toList.isSuffixOf s.toList

/-- Python `int(s)` on a string: optional surrounding whitespace, optional
sign, at least one digit; anything else raises `ValueError` (`none` here). -/
def pyIntOfString (s : String) : Option Int :=
  let t := (pyStrip s).toList
  let (neg, digits) :=
    match t with
    | '-' :: rest => (true, rest)
    | '+' :: rest => (false, rest)
    | rest => (false, rest)
  if digits = [] || !digits.all Char.isDigit then none
  else
    let n : Nat := digits.foldl (fun acc c => 10 * acc + (c.toNat - 48)) 0
    some (if neg then -(n : Int) else (n : Int))

/-! ## JSON values and `json.loads`

`Json` is the value domain of Python's `json` module: `num` keeps Python's
int/float distinction in the `isFloat` flag, and the non-standard literals
`NaN`/`Infinity`/`-Infinity` accepted by `json.loads` are the `nan`/`inf`
constructors. -/

inductive Json where
  | null
  | bool (b : Bool)
  | num (q : ℚ) (isFloat : Bool)
  | nan
  | inf (neg : Bool)
  | str (s : String)
  | arr (elems : List Json)
  | obj (fields : List (String × Json))
deriving Repr, Inhabited

/-- Whitespace skipped by `json.loads` between tokens. -/
def jsonWsChar (c : Char) : Bool :=
  [32, 9, 10, 13].contains c.toNat

/-- Drop leading JSON whitespace. -/
def skipJsonWs (s : List Char) : List Char :=
  s.dropWhile jsonWsChar

/-- Hex digit value, by code-point range (digits, then upper, then lower). -/
def hexVal (c : Char) : Option Nat :=
  let n := c.toNat
  if 48 ≤ n ∧ n ≤ 57 then some (n - 48)
  else if 65 ≤ n ∧ n ≤ 70 then some (n - 55)
  else if 97 ≤ n ∧ n ≤ 102 then some (n - 87)
  else none

/-- Accumulate one hex digit onto a partial value. -/
def hexAccum (acc : Nat) (c : Char) : Option Nat :=
  (hexVal c).map (fun v => 16 * acc + v)

/-- Parse exactly four hex digits. -/
def parseHex4 : List Char → Option (Nat × List Char)
  | c1 :: c2 :: c3 :: c4 :: rest =>
    (hexAccum 0 c1).bind fun x1 =>
      (hexAccum x1 c2).bind fun x2 =>
        (hexAccum x2 c3).bind fun x3 =>
          (hexAccum x3 c4).map fun x4 => (x4, rest)
  | _ => none

/-- Body of a JSON string literal, after the opening quote.  Mirrors the
strict decoder: raw control characters are rejected, the escapes are the JSON
ones, `\uXXXX` surrogate pairs are combined.  A lone surrogate (which Python
keeps as a lone surrogate code unit) is approximated by U+FFFD; no input in
this development contains one. -/
def parseJStringBody : Nat → List Char → List Char → Option (String × List Char)
  | 0, _, _ => none
  | _ + 1, _, [] => none
  | fuel + 1, acc, c :: rest =>
    if c == '"' then some (String.mk acc.reverse, rest)
    else if c == '\\' then
      match rest with
      | [] => none
      | e :: rest2 =>
        if e == '"' then parseJStringBody fuel ('"' :: acc) rest2
        else if e == '\\' then parseJStringBody fuel ('\\' :: acc) rest2
        else if e == '/' then parseJStringBody fuel ('/' :: acc) rest2
        else if e == 'b' then parseJStringBody fuel ('\x08' :: acc) rest2
        else if e == 'f' then parseJStringBody fuel ('\x0c' :: acc) rest2
        else if e == 'n' then parseJStringBody fuel ('\n' :: acc) rest2
        else if e == 'r' then parseJStringBody fuel ('\r' :: acc) rest2
        else if e == 't' then parseJStringBody fuel ('\t' :: acc) rest2
        else if e == 'u' then
          match parseHex4 rest2 with
          | none => none
          | some (n, rest3) =>
            if 0xD800 ≤ n && n ≤ 0xDBFF then
              match rest3 with
              | '\\' :: 'u' :: rest4 =>
                match parseHex4 rest4 with
                | some (m, rest5) =>
                  if 0xDC00 ≤ m && m ≤ 0xDFFF then
                    parseJStringBody fuel
                      (Char.ofNat (0x10000 + (n - 0xD800) * 0x400 + (m - 0xDC00)) :: acc) rest5
                  else parseJStringBody fuel (Char.ofNat 0xFFFD :: acc) rest3
                | none => parseJStringBody fuel (Char.ofNat 0xFFFD :: acc) rest3
              | _ => parseJStringBody fuel (Char.ofNat 0xFFFD :: acc) rest3
            else if 0xDC00 ≤ n && n ≤ 0xDFFF then
              parseJStringBody fuel (Char.ofNat 0xFFFD :: acc) rest3
            else
              parseJStringBody fuel (Char.ofNat n :: acc) rest3
        else none
    else if c.toNat < 0x20 then none
    else parseJStringBody fuel (c :: acc) rest

/-- Digits of a char list interpreted as a natural number. -/
def digitsToNat (ds : List Char) : Nat :=
  ds.foldl (fun acc c => 10 * acc + (c.toNat - 48)) 0

/-- Parse a JSON number (grammar `-? (0|[1-9][0-9]*) (.[0-9]+)? ([eE][+-]?[0-9]+)?`),
or the `json.loads` extensions `NaN` / `Infinity` / `-Infinity`. -/
def parseJNumber (s : List Char) : Option (Json × List Char) :=
  let (neg, s1) := match s with
    | '-' :: rest => (true, rest)
    | rest => (false, rest)
  if "Infinity".toList.isPrefixOf s1 then
    some (.inf neg, s1.drop 8)
  else if !neg && "NaN".toList.isPrefixOf s1 then
    some (.nan, s1.drop 3)
  else
  let intDigits := s1.takeWhile Char.isDigit
  let s2 := s1.drop intDigits.length
  if intDigits = [] then none
  else if intDigits.length > 1 && intDigits.headI = '0' then none
  else
    let (fracDigits, s3, isFloat1) :=
      match s2 with
      | '.' :: rest =>
        let fd := rest.takeWhile Char.isDigit
        (fd, rest.drop fd.length, true)
      | _ => ([], s2, false)
    if isFloat1 && fracDigits = [] then none
    else
      let (expVal, s4, isFloat2, expOk) :=
        match s3 with
        | 'e' :: rest | 'E' :: rest =>
          let (esign, rest2) :=
            match rest with
            | '-' :: r => ((-1 : Int), r)
            | '+' :: r => ((1 : Int), r)
            | r => ((1 : Int), r)
          let ed := rest2.takeWhile Char.isDigit
          if ed = [] then (0, s3, true, false)
          else (esign * (digitsToNat ed : Int), rest2.drop ed.length, true, true)
        | _ => ((0 : Int), s3, isFloat1, true)
      if !expOk then none
      else
        let mantissa : Int :=
          (digitsToNat intDigits * 10 ^ fracDigits.length + digitsToNat fracDigits : Nat)
        let base : ℚ := (mantissa : ℚ) / (10 : ℚ) ^ fracDigits.length
        let q : ℚ := (if neg then -base else base) * (10 : ℚ) ^ expVal
        some (.num q isFloat2, s4)

/-- Parsing modes for the single-function JSON recursive descent: a plain
value, the members of an object after `{`, or the elements of an array
after `[` (accumulators hold what was already parsed). -/
inductive PMode where
  | value
  | objMembers (acc : List (String × Json)) (first : Bool)
  | arrElems (acc : List Json) (first : Bool)

/-- Recursive-descent core of `json.loads`, fueled (structural on `fuel`).
Returns the parsed value and the unconsumed remainder. -/
def parseJ : Nat → PMode → List Char → Option (Json × List Char)
  | 0, _, _ => none
  | fuel + 1, .value, s =>
    match skipJsonWs s with
    | [] => none
    | c :: rest =>
      if c == '"' then
        match parseJStringBody (rest.length + 1) [] rest with
        | some (str, rest2) => some (.str str, rest2)
        | none => none
      else if c == lbrace then
        match skipJsonWs rest with
        | c2 :: rest2 =>
          if c2 == rbrace then some (.obj [], rest2)
          else parseJ fuel (.objMembers [] true) rest
        | [] => none
      else if c == '[' then
        match skipJsonWs rest with
        | c2 :: rest2 =>
          if c2 == ']' then some (.arr [], rest2)
          else parseJ fuel (.arrElems [] true) rest
        | [] => none
      else if "true".toList.isPrefixOf (c :: rest) then some (.bool true, (c :: rest).drop 4)
      else if "false".toList.isPrefixOf (c :: rest) then some (.bool false, (c :: rest).drop 5)
      else if "null".toList.isPrefixOf (c :: rest) then some (.null, (c :: rest).drop 4)
      else parseJNumber (c :: rest)
  | fuel + 1, .objMembers acc first, s =>
    let s1 := skipJsonWs s
    let keyStart :=
      if first then some s1
      else match s1 with
        | ',' :: rest => some (skipJsonWs rest)
        | _ => none
    match keyStart with
    | none => none
    | some s2 =>
      match s2 with
      | '"' :: rest =>
        match parseJStringBody (rest.length + 1) [] rest with
        | none => none
        | some (key, rest2) =>
          match skipJsonWs rest2 with
          | ':' :: rest3 =>
            match parseJ fuel .value rest3 with
            | none => none
            | some (v, rest4) =>
              let acc2 := acc ++ [(key, v)]
              match skipJsonWs rest4 with
              | c :: rest5 =>
                if c == rbrace then some (.obj acc2, rest5)
                else if c == ',' then parseJ fuel (.objMembers acc2 false) (',' :: rest5)
                else none
              | [] => none
          | _ => none
      | _ => none
  | fuel + 1, .arrElems acc first, s =>
    let s1 := skipJsonWs s
    let elemStart :=
      if first then some s1
      else match s1 with
        | ',' :: rest => some rest
        | _ => none
    match elemStart with
    | none => none
    | some s2 =>
      match parseJ fuel .value s2 with
      | none => none
      | some (v, rest) =>
        let acc2 := acc ++ [v]
        match skipJsonWs rest with
        | c :: rest2 =>
          if c == ']' then some (.arr acc2, rest2)
          else if c == ',' then parseJ fuel (.arrElems acc2 false) (',' :: rest2)
          else none
        | [] => none

/-- Python `json.loads`: parse one value, allow trailing whitespace only. -/
def jsonLoads (s : String) : Option Json :=
  match parseJ (s.length + 1) .value s.toList with
  | none => none
  | some (v, rest) => if skipJsonWs rest = [] then some v else none

/-! ## `AgentSkillsFramework._safe_parse_json` -/

/-- Suffix of the list starting at the first opening brace (`json_str.find('{')`). -/
def suffixFromBrace : List Char → Option (List Char)
  | [] => none
  | c :: rest => if c == lbrace then some (c :: rest) else suffixFromBrace rest

/-- The brace-counting scan of `_safe_parse_json`: starting at a `{`, return
the slice up to the brace that balances it.  Braces inside string literals are
counted too, exactly as the Python loop does. -/
def scanBalanced (depth : Nat) (acc : List Char) : List Char → Option (List Char)
  | [] => none
  | c :: rest =>
    if c == lbrace then scanBalanced (depth + 1) (c :: acc) rest
    else if c == rbrace then
      if depth = 1 then some ((c :: acc).reverse)
      else scanBalanced (depth - 1) (c :: acc) rest
    else scanBalanced depth (c :: acc) rest

/-- The dict `_safe_parse_json` returns when nothing can be parsed.  The
Python stores `str(e)` under `"_parse_error"`; the run loop only ever tests
key membership, so the message text is modelled by a fixed placeholder. -/
def parseErrorDict (s : String) : Json :=
  .obj [("_raw", .str s), ("_parse_error", .str "JSONDecodeError")]

/-- `AgentSkillsFramework._safe_parse_json`: `json.loads`, then on failure an
attempted salvage of the first brace-balanced block, then the `_raw` /
`_parse_error` dict. -/
def safeParseJson (s : String) : Json :=
  match jsonLoads s with
  | some v => v
  | none =>
    match suffixFromBrace s.toList with
    | some suffix =>
      match scanBalanced 0 [] suffix with
      | some block =>
        match jsonLoads (String.mk block) with
        | some v => v
        | none => parseErrorDict s
      | none => parseErrorDict s
    | none => parseErrorDict s

/-! ## Decimal numerals

`str(n)`, written out so that injectivity (needed for freshness of task
numbers) is provable. -/

/-- The decimal digit character for `d < 10`. -/
def decDigit (d : Nat) : Char := Char.ofNat (48 + d)

/-- Decimal digits of `n`, least significant first, fueled (every step divides
by ten, so fuel `n + 1` always suffices). -/
def digitsRev : Nat → Nat → List Char
  | 0, _ => []
  | fuel + 1, n => if n < 10 then [decDigit n] else decDigit (n % 10) :: digitsRev fuel (n / 10)

/-- Python `str(n)` for `n : Nat` (standard decimal numeral). -/
def natStr (n : Nat) : String := String.mk (digitsRev (n + 1) n).reverse

/-- Numeric value of a little-endian digit list (proof-side inverse of
`digitsRev`). -/
def digitsVal : List Char → Nat
  | [] => 0
  | c :: rest => (c.toNat - 48) + 10 * digitsVal rest

/-- Python `str(i)` for an integer. -/
def intStr (i : Int) : String :=
  if i < 0 then "-" ++ natStr i.natAbs else natStr i.natAbs

/-! ## Python dynamic semantics used by the loop -/

/-- Python exceptions the embedded code can raise. -/
inductive PyErr where
  | typeError
  | attributeError
  | valueError
  | nameError
deriving Repr, DecidableEq

/-- Representative `str(e)` texts (the loop returns `"Error: " ++ str(e)`;
the exact wording of the interpreter messages is not load-bearing). -/
def pyErrStr : PyErr → String
  | .typeError => "TypeError"
  | .attributeError => "AttributeError"
  | .valueError => "ValueError"
  | .nameError => "name 'live' is not defined"

/-- Python `needle in v` for a JSON-decoded `v`: key test on dicts, element
test on lists, substring test on strings, `TypeError` otherwise. -/
def pyInJson (needle : String) (v : Json) : Except PyErr Bool :=
  match v with
  | .obj fs => .ok (fs.any (fun kv => kv.1 == needle))
  | .arr es => .ok (es.any (fun e => match e with | .str s => s == needle | _ => false))
  | .str s => .ok (pySubstr needle s)
  | _ => .error .typeError

/-- Python `v.get(key)` (default `None`): last-wins dict lookup, and
`AttributeError` when `v` is not a dict. -/
def pyGetJson (v : Json) (key : String) : Except PyErr (Option Json) :=
  match v with
  | .obj fs =>
    .ok (match fs.reverse.find? (fun kv => kv.1 == key) with
         | some kv => some kv.2
         | none => none)
  | _ => .error .attributeError

/-- Python truthiness of a JSON-decoded value. -/
def pyTruthyJson : Json → Bool
  | .null => false
  | .bool b => b
  | .num q _ => !(q = 0)
  | .nan => true
  | .inf _ => true
  | .str s => !(s = "")
  | .arr es => !es.isEmpty
  | .obj fs => !fs.isEmpty

/-- Truthiness of an optional string (Python `if x:` on `None` / `str`). -/
def pyTruthyOptStr : Option String → Bool
  | none => false
  | some s => !(s = "")

/-- Approximation of Python `repr(float)` for the rationals our number
parser produces.  No claim exercises float formatting; it only arises when a
float-valued tool argument is interpolated into a filename or message. -/
def floatRepr (q : ℚ) : String :=
  if q.den = 1 then intStr q.num ++ ".0" else toString q

mutual

/-- Python `repr(v)` of a JSON-decoded value (string escaping inside `repr`
is approximated by plain single quotes; container arguments never reach a
claim). -/
def pyReprJson : Json → String
  | .null => "None"
  | .bool true => "True"
  | .bool false => "False"
  | .num q isFloat => if isFloat then floatRepr q else intStr q.num
  | .nan => "nan"
  | .inf neg => if neg then "-inf" else "inf"
  | .str s => "'" ++ s ++ "'"
  | .arr es => "[" ++ pyReprList es ++ "]"
  | .obj fs => "\x7b" ++ pyReprFields fs ++ "\x7d"

/-- `repr` of list elements, comma separated. -/
def pyReprList : List Json → String
  | [] => ""
  | [x] => pyReprJson x
  | x :: rest => pyReprJson x ++ ", " ++ pyReprList rest

/-- `repr` of dict items, comma separated. -/
def pyReprFields : List (String × Json) → String
  | [] => ""
  | [(k, v)] => "'" ++ k ++ "': " ++ pyReprJson v
  | (k, v) :: rest => "'" ++ k ++ "': " ++ pyReprJson v ++ ", " ++ pyReprFields rest

end

/-- Python `str(v)` of a JSON-decoded value: like `repr(v)` except that a
string is returned without quotes. -/
def pyStrJson : Json → String
  | .str s => s
  | v => pyReprJson v

/-- Four-digit uppercase hex (for `\uXXXX` escapes of `json.dumps`). -/
def toHex4 (n : Nat) : String :=
  let d (k : Nat) : Char :=
    if k < 10 then Char.ofNat ('0'.toNat + k) else Char.ofNat ('a'.toNat + (k - 10))
  String.mk [d (n / 4096 % 16), d (n / 256 % 16), d (n / 16 % 16), d (n % 16)]

/-- `json.dumps` escaping of one character (`ensure_ascii=True`). -/
def dumpChar (c : Char) : String :=
  if c == '"' then "\\\""
  else if c == '\\' then "\\\\"
  else if c == '\n' then "\\n"
  else if c == '\t' then "\\t"
  else if c == '\r' then "\\r"
  else if c == '\x08' then "\\b"
  else if c == '\x0c' then "\\f"
  else if c.toNat < 0x20 then "\\u" ++ toHex4 c.toNat
  else if c.toNat < 0x7f then String.singleton c
  else if c.toNat ≤ 0xffff then "\\u" ++ toHex4 c.toNat
  else
    let n := c.toNat - 0x10000
    "\\u" ++ toHex4 (0xD800 + n / 0x400) ++ "\\u" ++ toHex4 (0xDC00 + n % 0x400)

/-- `json.dumps` of a string literal. -/
def dumpString (s : String) : String :=
  "\"" ++ String.join (s.toList.map dumpChar) ++ "\""

mutual

/-- Python `json.dumps(v)` with default separators. -/
def jsonDumps : Json → String
  | .null => "null"
  | .bool true => "true"
  | .bool false => "false"
  | .num q isFloat => if isFloat then floatRepr q else intStr q.num
  | .nan => "NaN"
  | .inf neg => if neg then "-Infinity" else "Infinity"
  | .str s => dumpString s
  | .arr es => "[" ++ jsonDumpsList es ++ "]"
  | .obj fs => "\x7b" ++ jsonDumpsFields fs ++ "\x7d"

/-- `json.dumps` of array elements. -/
def jsonDumpsList : List Json → String
  | [] => ""
  | [x] => jsonDumps x
  | x :: rest => jsonDumps x ++ ", " ++ jsonDumpsList rest

/-- `json.dumps` of object members. -/
def jsonDumpsFields : List (String × Json) → String
  | [] => ""
  | [(k, v)] => dumpString k ++ ": " ++ jsonDumps v
  | (k, v) :: rest => dumpString k ++ ": " ++ jsonDumps v ++ ", " ++ jsonDumpsFields rest

end

/-- The incomplete-bin filename `task_<n>.txt` of task number `n`. -/
def taskFileName (n : Nat) : String := "task_" ++ natStr n ++ ".txt"

/-! ## The scratch working area

`scratch/` as a record: the two task bins as (filename, contents) association
lists in directory order, the `CURRENT_TASK.txt` marker, and the `url_*.jsonl`
cache written by the web tool (in glob order). -/

/-- One cached `url_*.jsonl` file (`url`, `title`, `content` keys). -/
structure UrlEntry where
  url : String
  title : Option String
  content : Option String
deriving Repr, DecidableEq

/-- The JSON object stored in `CURRENT_TASK.txt`. -/
structure CurrentTask where
  taskNumber : Option Int
  description : Option String
  status : String
deriving Repr, DecidableEq

/-- The scratch directory. `currentTask = none` means `CURRENT_TASK.txt` is
absent. -/
structure Scratch where
  incomplete : List (String × String)
  completed : List (String × String)
  currentTask : Option CurrentTask
  urlCache : List UrlEntry
deriving Repr, DecidableEq

/-- The freshly reset scratch directory (`_initialize_scratch_directory`
removes everything and recreates the two empty bins; the preserved `data/`
sub-path holds no task state). -/
def emptyScratch : Scratch := ⟨[], [], none, []⟩

/-- The filenames in a bin (`os.listdir`). -/
def binNames (bin : List (String × String)) : List String := bin.map Prod.fst

/-- Contents of a file, if present. -/
def lookupFile (bin : List (String × String)) (name : String) : Option String :=
  (bin.find? (fun kv => kv.1 == name)).map Prod.snd

/-- Write a file: overwrite in place, or create. -/
def writeFile (bin : List (String × String)) (name contents : String) :
    List (String × String) :=
  if bin.any (fun kv => kv.1 == name) then
    bin.map (fun kv => if kv.1 == name then (name, contents) else kv)
  else
    bin ++ [(name, contents)]

/-- Delete a file (`Path.unlink`). -/
def removeFile (bin : List (String × String)) (name : String) :
    List (String × String) :=
  bin.filter (fun kv => !(kv.1 == name))

/-- The filter both the loop and `complete_task` apply to directory listings:
`f.startswith("task_") and f.endswith(".txt")`. -/
def isTaskFileName (s : String) : Bool :=
  pyStartsWith s "task_" && pyEndsWith s ".txt"

/-- The sorted incomplete-task listing used by the run loop and by the
auto-advance of `complete_task` (Python `sorted` on filenames, i.e.
lexicographic by code point — not numeric). -/
def sortedTaskFiles (bin : List (String × String)) : List String :=
  sortStrings ((binNames bin).filter isTaskFileName)

/-! ## `skills/planning/scripts/tools.py`: `create_subquestion_tasks` -/

/-- The scan-and-increment numbering loop
(`while os.path.exists(tasks_dir/f"task_{task_num}.txt"): task_num += 1`),
fueled; the fuel `names.length + 1` passed by `nextTaskNum` always suffices
because the candidate numbers have pairwise distinct filenames. -/
def scanTaskNum (names : List String) : Nat → Nat → Nat
  | 0, k => k
  | fuel + 1, k =>
    if names.contains (taskFileName k) then scanTaskNum names fuel (k + 1) else k

/-- The next task number assigned by `create_subquestion_tasks`: the least
`k ≥ 1` whose file is not currently in the incomplete bin.  Completed tasks
are not consulted. -/
def nextTaskNum (names : List String) : Nat :=
  scanTaskNum names (names.length + 1) 1

/-- The per-description body of `create_subquestion_tasks`: number and write
each task in order, returning the new scratch and the created
(number, description) pairs. -/
def createTasksFromList (sc : Scratch) : List String → Scratch × List (Nat × String)
  | [] => (sc, [])
  | d :: rest =>
    let n := nextTaskNum (binNames sc.incomplete)
    let sc2 := { sc with incomplete := writeFile sc.incomplete (taskFileName n) d }
    let (sc3, created) := createTasksFromList sc2 rest
    (sc3, (n, d) :: created)

/-- The result-JSON of `create_subquestion_tasks` (returned to the model as a
string). -/
def createTasksResultJson (created : List (Nat × String)) : Json :=
  .obj [("status", .str "success"),
        ("tasks_created", .num created.length false),
        ("tasks", .arr (created.map (fun nd =>
          .obj [("task_number", .num nd.1 false),
                ("task_file", .str ("scratch/incomplete_tasks/" ++ taskFileName nd.1)),
                ("description", .str nd.2)]))),
        ("first_task_active", .bool (match created with
          | (n, _) :: _ => n == 1
          | [] => false))]

/-- `create_subquestion_tasks(descriptions)` with the already-normalized list
of description strings: create the tasks, and when the first task created by
this call received number 1, (re)initialize `CURRENT_TASK.txt` to it. -/
def createSubquestionTasksList (descs : List String) (sc : Scratch) :
    Scratch × List (Nat × String) × Json :=
  let (sc2, created) := createTasksFromList sc descs
  let sc3 :=
    match created with
    | (1, d) :: _ =>
      { sc2 with currentTask := some ⟨some 1, some d, "active"⟩ }
    | _ => sc2
  (sc3, created, .str (jsonDumps (createTasksResultJson created)))

/-- The input normalization of `create_subquestion_tasks`: a string is kept
whole unless it looks like a JSON list and parses as one, a dict contributes
its `description` value (or its `str()`), a list is used as is; the final
`str(description)` conversion of each element is applied.  Non-iterable
scalars fall through the `isinstance` checks: falsy ones hit the
`"No task descriptions provided"` early return, truthy ones raise `TypeError`
at the `for` loop. -/
def createSubquestionTasks (descriptions : Json) (sc : Scratch) :
    Except PyErr (Scratch × List (Nat × String) × Json) :=
  let normalized : Json :=
    match descriptions with
    | .str s =>
      if pyStartsWith (pyStrip s) "[" then
        match jsonLoads s with
        | some (.arr es) => .arr es
        | some v => .arr [v]  -- unreachable: a parse starting at `[` is an array
        | none => .arr [.str s]
      else .arr [.str s]
    | .obj fs =>
      .arr [match (fs.reverse.find? (fun kv => kv.1 == "description")).map Prod.snd with
            | some v => v
            | none => .str (pyStrJson (.obj fs))]
    | v => v
  if !pyTruthyJson normalized then
    .ok (sc, [], .str (jsonDumps (.obj [("status", .str "error"),
      ("message", .str "No task descriptions provided")])))
  else
    match normalized with
    | .arr es => .ok (createSubquestionTasksList (es.map pyStrJson) sc)
    | _ => .error .typeError

/-! ## The `complete_task` global tool (run-loop branch, `agent.py`) -/

/-- What `complete_task` did to the queue (drives the message / activation
logic of the dispatcher). -/
inductive CompleteNote where
  | nextActivated (nextNum : Int) (numLabel : String) (desc : String)
  | queueEmpty
  | notFound
deriving Repr, DecidableEq

/-- The queue part of the `complete_task` branch: move
`incomplete_tasks/task_<n>.txt` to the completed bin with the result text as
contents, then auto-advance `CURRENT_TASK.txt` to the first (lexicographically
smallest) remaining `task_*.txt`, or clear it to status `"none"`.
`task_number` and `result` are the raw decoded arguments; a non-string result
raises at `f.write`, a non-numeric next filename raises at `int(...)`.
(When an exception is raised the Python has already moved the file; the run
loop then returns an error string, so the lost mutation is unobservable.) -/
def completeTaskCore (sc : Scratch) (taskNumberArg resultArg : Json) :
    Except PyErr (Scratch × CompleteNote) :=
  let numStr := pyStrJson taskNumberArg
  let fname := "task_" ++ numStr ++ ".txt"
  if (lookupFile sc.incomplete fname).isSome then
    match resultArg with
    | .str resultText =>
      let completed2 := writeFile sc.completed fname resultText
      let incomplete2 := removeFile sc.incomplete fname
      match sortStrings ((binNames incomplete2).filter isTaskFileName) with
      | next :: _ =>
        let nextNumStr := pyReplace (pyReplace next "task_" "") ".txt" ""
        let desc := pyStrip ((lookupFile incomplete2 next).getD "")
        match pyIntOfString nextNumStr with
        | some nextNum =>
          .ok ({ sc with incomplete := incomplete2, completed := completed2,
                         currentTask := some ⟨some nextNum, some desc, "active"⟩ },
               .nextActivated nextNum nextNumStr desc)
        | none => .error .valueError
      | [] =>
        .ok ({ sc with incomplete := incomplete2, completed := completed2,
                       currentTask := some ⟨none, none, "none"⟩ },
             .queueEmpty)
    | _ => .error .typeError
  else
    .ok (sc, .notFound)

/-! ## Conversation messages -/

/-- Message roles. -/
inductive Role where
  | system
  | user
  | assistant
  | tool
deriving Repr, DecidableEq

/-- One entry of an assistant message's `tool_calls` list (`id`, function
name, raw arguments string). -/
structure ToolCall where
  id : String
  name : String
  args : String
deriving Repr, DecidableEq

/-- A conversation message as sent to the model. -/
structure Msg where
  role : Role
  content : Option String
  toolCalls : List ToolCall := []
  toolCallId : Option String := none
deriving Repr, DecidableEq

/-- A system message. -/
def mkSystem (c : String) : Msg := ⟨.system, some c, [], none⟩

/-- A user message. -/
def mkUser (c : String) : Msg := ⟨.user, some c, [], none⟩

/-- An assistant message without tool calls. -/
def mkAssistant (c : Option String) : Msg := ⟨.assistant, c, [], none⟩

/-- A tool-role message answering tool call `id`. -/
def mkTool (id c : String) : Msg := ⟨.tool, some c, [], some id⟩

/-- The assistant message carrying a batch of tool calls. -/
def mkAssistantCalls (c : Option String) (tcs : List ToolCall) : Msg :=
  ⟨.assistant, c, tcs, none⟩

/-! ## Skill registry and oracles -/

/-- The loaded skill registry: `(name, description)` pairs in load order.
`instructionsOf` abstracts the SKILL.md bodies (`activate_skill`), and
`toolsOf` the OpenAI tool names derived for a skill (`get_skill_tools`);
neither document is inspected by the run-loop logic under verification. -/
structure Loader where
  skills : List (String × String)
  instructionsOf : String → String
  toolsOf : String → List String

/-- The loaded skill names (`self.skill_loader.skills` keys, in order). -/
def Loader.skillNames (L : Loader) : List String := L.skills.map Prod.fst

/-- Verdict of the citation-judging LLM call
(`_verify_citation_with_llm`): the `supports` / `explanation` / `confidence`
fields of its response (all failure modes of that call also yield such a
triple with `supports = False`). -/
structure Verdict where
  supports : Bool
  explanation : String
  confidence : String
deriving Repr, DecidableEq

/-- One model-call outcome: a reply, or an exception whose `str(e)` is
`failure`'s message (a rate limit is recognised by substring tests on it). -/
inductive CallOutcome where
  | reply (content : Option String) (toolCalls : List ToolCall)
  | failure (msg : String)
deriving Repr

/-- Trace events (ghost state recording what the loop did, used only by the
theorems). -/
inductive Ev where
  | modelCall (iteration : Nat)
  | dispatched (name : String)
  | scriptExec (skill script : String)
deriving Repr, DecidableEq

/-- The environment: skill-script execution, the citation judge, the report
uploader result, whether stdout is a terminal, and the stream of model-call
outcomes (indexed by call number). -/
structure Env where
  execScript : String → String → Json → Scratch → Json × Scratch
  judge : String → String → String → Verdict
  catboxUrl : Option String
  isatty : Bool
  oracle : Nat → CallOutcome

/-- Per-run mutable state of `run()`. -/
structure LoopState where
  messages : List Msg
  activeSkill : Option String
  activeTools : List String
  scratch : Scratch
  liveBound : Bool
  trace : List Ev
deriving Repr

/-- Append one message. -/
def appendMsg (st : LoopState) (m : Msg) : LoopState :=
  { st with messages := st.messages ++ [m] }

/-! ## URL extraction (`skills/answer/scripts/verify_links.py`) -/

/-- `re.split(r'[.!?]\s+', text)`: cut at each punctuation-then-whitespace
occurrence, dropping the matched text.  Fueled; one char is consumed per
step. -/
def splitSentAux : Nat → List Char → List Char → List String
  | 0, acc, rest => [String.mk (acc.reverse ++ rest)]
  | _ + 1, acc, [] => [String.mk acc.reverse]
  | fuel + 1, acc, c :: rest =>
    if (c == '.' || c == '!' || c == '?') &&
        (match rest with | r :: _ => pyWsChar r | [] => false) then
      String.mk acc.reverse :: splitSentAux fuel [] (rest.dropWhile pyWsChar)
    else
      splitSentAux fuel (c :: acc) rest

/-- Sentence split of `_extract_urls_with_context`. -/
def splitSentences (s : String) : List String :=
  splitSentAux (s.length + 1) [] s.toList

/-- Attempt the markdown-link pattern `\[([^\]]+)\]\(([^)]+)\)` at the head of
the input (which must be `[`); returns the url group and the remainder. -/
def tryMdLink (s : List Char) : Option (String × List Char) :=
  match s with
  | '[' :: rest =>
    let label := rest.takeWhile (fun c => !(c == ']'))
    if label.isEmpty then none
    else
      match rest.drop label.length with
      | ']' :: '(' :: rest2 =>
        let url := rest2.takeWhile (fun c => !(c == ')'))
        if url.isEmpty then none
        else
          match rest2.drop url.length with
          | ')' :: rest3 => some (String.mk url, rest3)
          | _ => none
      | _ => none
  | _ => none

/-- `re.finditer` of the markdown-link pattern: leftmost, non-overlapping. -/
def mdUrls : Nat → List Char → List String
  | 0, _ => []
  | _ + 1, [] => []
  | fuel + 1, c :: rest =>
    if c == '[' then
      match tryMdLink (c :: rest) with
      | some (url, rem) => url :: mdUrls fuel rem
      | none => mdUrls fuel rest
    else mdUrls fuel rest

/-- Characters ending a bare URL (`[^\s\)>\]"]`). -/
def bareUrlStop (c : Char) : Bool :=
  pyWsChar c || c == ')' || c == '>' || c == ']' || c == '"'

/-- Attempt the bare-URL pattern `https?://[^\s\)>\]"]+` at the head of the
input. -/
def tryBareUrl (s : List Char) : Option (String × List Char) :=
  match s with
  | 'h' :: 't' :: 't' :: 'p' :: rest =>
    let (scheme, rest2) :=
      match rest with
      | 's' :: r => ("https", r)
      | r => ("http", r)
    match rest2 with
    | ':' :: '/' :: '/' :: rest3 =>
      let body := rest3.takeWhile (fun c => !bareUrlStop c)
      if body.isEmpty then none
      else some (scheme ++ "://" ++ String.mk body, rest3.drop body.length)
    | _ => none
  | _ => none

/-- `re.finditer` of the bare-URL pattern: leftmost, non-overlapping,
greedy. -/
def bareUrls : Nat → List Char → List String
  | 0, _ => []
  | _ + 1, [] => []
  | fuel + 1, c :: rest =>
    match tryBareUrl (c :: rest) with
    | some (url, rem) => url :: bareUrls fuel rem
    | none => bareUrls fuel (c :: rest).tail

/-- Keep the first occurrence of each url (`seen` set of the source). -/
def dedupByUrl : List (String × String) → List String → List (String × String)
  | [], _ => []
  | (u, cl) :: rest, seen =>
    if seen.contains u then dedupByUrl rest seen
    else (u, cl) :: dedupByUrl rest (u :: seen)

/-- `_extract_urls_with_context`: per sentence, markdown-link urls then bare
urls, each paired with the stripped sentence; deduplicated by url preserving
order. -/
def extractUrlsWithContext (text : String) : List (String × String) :=
  let pairs := (splitSentences text).flatMap (fun sent =>
    let cl := sent.toList
    (mdUrls (cl.length + 1) cl ++ bareUrls (cl.length + 1) cl).map
      (fun u => (u, pyStrip sent)))
  dedupByUrl pairs []

/-! ## `skills/answer/scripts/verify_links.py` `execute` -/

/-- `_find_cached_content`: the first `url_*.jsonl` cache entry whose `url`
matches. -/
def findCachedContent (cache : List UrlEntry) (url : String) :
    Option (Option String × Option String) :=
  (cache.find? (fun e => e.url == url)).map (fun e => (e.title, e.content))

/-- The 8000-char truncation applied before the citation-judge call. -/
def truncateContent (content : String) : String :=
  if content.length > 8000 then
    String.mk (content.toList.take 8000) ++ "\n\n[Content truncated...]"
  else content

/-- Per-URL verification result entry plus whether the url is unsupported. -/
def verifyOneUrl (cache : List UrlEntry) (judge : String → String → String → Verdict)
    (url claim : String) : Json × Bool :=
  match findCachedContent cache url with
  | some (title, some content) =>
    if !(content == "") then
      let v := judge url claim (truncateContent content)
      (.obj [("claim", .str claim), ("cached", .bool true),
             ("title", match title with | some t => .str t | none => .null),
             ("supports", .bool v.supports), ("explanation", .str v.explanation),
             ("confidence", .str v.confidence)],
       !v.supports)
    else
      (.obj [("claim", .str claim), ("cached", .bool false),
             ("supports", .bool false),
             ("explanation", .str "Content not cached - cannot verify"),
             ("confidence", .str "N/A")], true)
  | _ =>
    (.obj [("claim", .str claim), ("cached", .bool false),
           ("supports", .bool false),
           ("explanation", .str "Content not cached - cannot verify"),
           ("confidence", .str "N/A")], true)

/-- The per-url section of the problem report. -/
def reportSection (entry : Json) (url : String) : String :=
  let getStr (k : String) : String :=
    match entry with
    | .obj fs =>
      match (fs.reverse.find? (fun kv => kv.1 == k)).map Prod.snd with
      | some (.str s) => s
      | some v => pyStrJson v
      | none => ""
    | _ => ""
  "### `" ++ url ++ "`\n" ++
  "**Claim:** " ++ getStr "claim" ++ "\n\n" ++
  "**Issue:** " ++ getStr "explanation" ++ "\n" ++
  "**Confidence:** " ++ getStr "confidence" ++ "\n\n"

/-- `execute` of the answer skill's `verify_links.py`: extract cited urls,
check each against the scratch cache (and the judge LLM when cached),
and report. -/
def answerVerifyExecute (cache : List UrlEntry)
    (judge : String → String → String → Verdict) (responseText : String) : Json :=
  if responseText == "" then
    .obj [("error", .str "response_text parameter is required")]
  else
    let urlClaims := extractUrlsWithContext responseText
    if urlClaims.isEmpty then
      .obj [("result", .obj [("status", .str "no_links"),
        ("message", .str "No URLs found in response to verify"),
        ("verified_response", .str responseText)])]
    else
      let checked := urlClaims.map (fun uc =>
        (uc.1, verifyOneUrl cache judge uc.1 uc.2))
      let results : List (String × Json) := checked.map (fun c => (c.1, c.2.1))
      let unsupported := (checked.filter (fun c => c.2.2)).map Prod.fst
      let total := urlClaims.length
      let supported := total - unsupported.length
      if !unsupported.isEmpty then
        let report :=
          "# Citation Verification Results\n\n" ++
          "**Total citations checked:** " ++ natStr total ++ "\n" ++
          "**Supported citations:** " ++ natStr supported ++ "\n" ++
          "**Unsupported/Unverifiable citations:** " ++ natStr unsupported.length ++
          "\n\n## Problematic Citations:\n\n" ++
          String.join (unsupported.map (fun u =>
            reportSection (((results.find? (fun kv => kv.1 == u)).map Prod.snd).getD .null) u)) ++
          "\n## Recommendation\n\n" ++
          "**The answer contains citations that do not support the claims.** You must either:\n" ++
          "1. Remove the unsupported claims from your answer\n" ++
          "2. Use the web skill to find better sources that actually support your claims\n" ++
          "3. Revise the claims to match what the sources actually say\n\n" ++
          "Do NOT submit an answer with unsupported or unverifiable citations.\n"
        .obj [("result", .obj [("status", .str "unsupported_citations"),
          ("total_urls", .num total false),
          ("supported_urls", .num supported false),
          ("unsupported_urls", .num unsupported.length false),
          ("unsupported_url_list", .arr (unsupported.map .str)),
          ("verification_details", .obj results),
          ("report", .str report),
          ("should_research_again", .bool true)])]
      else
        let report :=
          "# Citation Verification Results\n\n" ++
          "**Total citations checked:** " ++ natStr total ++ "\n" ++
          "**All citations are verified and support the claims!** âœ“\n\n" ++
          "The response is ready to submit.\n"
        .obj [("result", .obj [("status", .str "all_verified"),
          ("total_urls", .num total false),
          ("supported_urls", .num supported false),
          ("unsupported_urls", .num 0 false),
          ("verification_details", .obj results),
          ("report", .str report),
          ("verified_response", .str responseText),
          ("should_research_again", .bool false)])]

/-! ## `SkillLoader._auto_verify_links` and `_finalize_response` -/

/-- Modelled from the spec: the SKILL.md manifests (and with them the mapping
from skill names to directories) are absent from `src/`, so which
`verify_links.py` the always-loaded `finalize` skill owns cannot be read off
the sources.  Spec §4.4 describes finalization as checking cited urls against
previously cached fetched content, which is the behaviour of
`skills/answer/scripts/verify_links.py`; that script is therefore taken as
the one `_auto_verify_links` loads from the finalize skill's directory. -/
def finalizeVerifyExecute (cache : List UrlEntry)
    (judge : String → String → String → Verdict) (responseText : String) : Json :=
  answerVerifyExecute cache judge responseText

/-- Last-wins lookup on an object's fields (`dict.get`). -/
def objGet (v : Json) (key : String) : Option Json :=
  match v with
  | .obj fs => (fs.reverse.find? (fun kv => kv.1 == key)).map Prod.snd
  | _ => none

/-- `SkillLoader._auto_verify_links`: run the finalize skill's verify script
on the candidate response and dispatch on the reported status.  Only
`"invalid_links_found"` triggers a retry; `"all_valid"` and every other
status (including a missing finalize skill, a script error dict, or an
exception inside verification) return the response unchanged with no
retry. -/
def autoVerifyLinks (finalizeLoaded : Bool) (cache : List UrlEntry)
    (judge : String → String → String → Verdict) (response : String) :
    String × Bool :=
  if !finalizeLoaded then (response, false)
  else
    let result := finalizeVerifyExecute cache judge response
    let hasError := match result with
      | .obj fs => fs.any (fun kv => kv.1 == "error")
      | _ => false
    if hasError then (response, false)
    else
      let vd := (objGet result "result").getD (.obj [])
      match objGet vd "status" with
      | some (.str "invalid_links_found") =>
        let modified := match objGet vd "modified_response" with
          | some (.str s) => s
          | some v => pyStrJson v
          | none => response
        let shouldRetry := pyTruthyJson ((objGet vd "should_research_again").getD (.bool false))
        (modified, shouldRetry)
      | some (.str "all_valid") => (response, false)
      | _ => (response, false)

/-- `AgentSkillsFramework._finalize_response`: verify links (early `("",
true)` on retry), keep the answer as is (`_append_files_list` is the
identity), and append the report url line when the upload succeeded. -/
def finalizeResponse (finalizeLoaded : Bool) (cache : List UrlEntry)
    (judge : String → String → String → Verdict) (catboxUrl : Option String)
    (response : String) : String × Bool :=
  let vr := autoVerifyLinks finalizeLoaded cache judge response
  if vr.2 then ("", true)
  else
    match catboxUrl with
    | some u => (vr.1 ++ "\n\n**Report URL:** " ++ u ++ "\n", false)
    | none => (vr.1, false)

/-! ## Skill activation (`_activate_skill`, `_get_current_task_info`) -/

/-- `_get_current_task_info`: the current-task banner, or `""` when
`CURRENT_TASK.txt` is absent, unreadable, or not `active`. -/
def currentTaskInfo (sc : Scratch) : String :=
  match sc.currentTask with
  | some ct =>
    if ct.status == "active" then
      "\n\n--- CURRENT TASK ---\nTask #" ++
      (match ct.taskNumber with | some n => intStr n | none => "None") ++ ": " ++
      (match ct.description with | some d => d | none => "None") ++ "\n---"
    else ""
  | none => ""

/-- The activation message text assembled by `_activate_skill`. -/
def activationMessage (head instructions taskInfo : String) : String :=
  head ++ "\n\nInstructions:\n" ++ instructions ++
  "\n\nYou can access tools from this skill." ++ taskInfo

/-- `_activate_skill`: load the instructions and tool list of a skill and
build the activation message.  For a name not in the registry,
`SkillLoader.activate_skill` returns `None` and the subsequent
`len(skill_content)` raises `TypeError`. -/
def activateSkillParts (L : Loader) (name taskInfo head : String) :
    Except PyErr (String × List String × String) :=
  if L.skillNames.contains name then
    let content := L.instructionsOf name
    .ok (content, L.toolsOf name, activationMessage head content taskInfo)
  else .error .typeError

/-! ## Fixed message texts of the run loop -/

/-- Placeholder assistant message substituted for a malformed tool call. -/
def placeholderAssistantText : String :=
  "I need to call a tool but generated invalid JSON."

/-- Corrective user message after a malformed tool call. -/
def malformedJsonCorrectiveText : String :=
  "Your tool call had malformed JSON arguments. Please follow the tool argument schema exactly. Ensure all strings are properly escaped, especially code with newlines. Try again with valid JSON."

/-- Corrective user message injected when finalization asks for a retry. -/
def linkRetryText : String :=
  "Your previous response contained invalid or inaccessible links. Please use the web tool to find valid sources and provide an updated answer with working links."

/-- The task number shown in the reminder list: the filename with all
`task_` and `.txt` occurrences removed. -/
def taskNumLabel (t : String) : String :=
  pyReplace (pyReplace t "task_" "") ".txt" ""

/-- The reminder injected when the model produced no tool calls while
incomplete tasks remain. -/
def reminderText (files : List String) : String :=
  "You have " ++ natStr files.length ++ " incomplete task(s):\n" ++
  String.intercalate "\n" (files.map (fun t => "- Task " ++ taskNumLabel t)) ++
  "\n\nYou must complete all tasks before finishing. Use the skill_switch tool to switch to an appropriate skill (e.g., skill_switch with skill_name='web') to work on these tasks."

/-! ## Tool-call dispatch (`run`, lines 1182–1554) -/

/-- Result of dispatching one tool call: continue with the next call, return
the final answer from the run, or a Python exception (the carried state is
the ghost trace at that point). -/
inductive DispatchOut where
  | next (st : LoopState)
  | finalReturn (answer : String) (st : LoopState)
  | raised (e : PyErr) (st : LoopState)
deriving Repr

/-- Dispatch of a single tool call by name: `activate_<skill>`,
`list_skills`, `skill_switch`, `complete_task`, otherwise a skill-script
execution against the active skill (with the `FINAL_ANSWER_SUBMITTED`
short-circuit into finalization). -/
def dispatchCall (env : Env) (L : Loader) (st0 : LoopState) (tc : ToolCall) :
    DispatchOut :=
  let st := { st0 with trace := st0.trace ++ [.dispatched tc.name] }
  let functionArgs := safeParseJson tc.args
  if pyStartsWith tc.name "activate_" then
    -- skill_name = function_name.replace("activate_", "")
    let skillName := pyReplace tc.name "activate_" ""
    if L.skillNames.contains skillName then
      match activateSkillParts L skillName (currentTaskInfo st.scratch)
          ("Skill '" ++ skillName ++ "' activated.") with
      | .ok (_, tools, amsg) =>
        .next { st with activeSkill := some skillName, activeTools := tools,
                        messages := st.messages ++ [mkTool tc.id amsg] }
      | .error e => .raised e st  -- unreachable: membership was just checked
    else
      .next (appendMsg st (mkTool tc.id ("Error: Skill '" ++ skillName ++ "' not found.")))
  else if tc.name == "list_skills" then
    let lines := L.skills.map (fun nd => "- **" ++ nd.1 ++ "**: " ++ nd.2)
    .next (appendMsg st (mkTool tc.id ("Available skills:\n\n" ++ String.intercalate "\n" lines)))
  else if tc.name == "skill_switch" then
    match pyGetJson functionArgs "skill_name" with
    | .error e => .raised e st
    | .ok v =>
      let newSkillName := v.getD .null
      if !pyTruthyJson newSkillName then
        .next (appendMsg st (mkTool tc.id "Error: skill_name parameter is required"))
      else
        let nameOk : Option String :=
          match newSkillName with
          | .str s => if L.skillNames.contains s then some s else none
          | _ => none
        match nameOk with
        | none =>
          let available := String.intercalate ", " L.skillNames
          .next (appendMsg st (mkTool tc.id
            ("Error: Skill '" ++ pyStrJson newSkillName ++ "' not found. Available skills: " ++ available)))
        | some s =>
          match activateSkillParts L s (currentTaskInfo st.scratch)
              ("Switched to skill '" ++ s ++ "'.") with
          | .ok (_, tools, amsg) =>
            .next { st with activeSkill := some s, activeTools := tools,
                            messages := st.messages ++ [mkTool tc.id amsg] }
          | .error e => .raised e st  -- unreachable: membership was just checked
  else if tc.name == "complete_task" then
    match pyGetJson functionArgs "task_number" with
    | .error e => .raised e st
    | .ok tn =>
      match pyGetJson functionArgs "result" with
      | .error e => .raised e st
      | .ok res =>
        let taskNumber := tn.getD .null
        let resultArg := res.getD (.str "")
        match completeTaskCore st.scratch taskNumber resultArg with
        | .error e => .raised e st
        | .ok (sc2, note) =>
          match note with
          | .nextActivated _ numLabel desc =>
            let respMsg := "Task " ++ pyStrJson taskNumber ++
              " marked as complete. Task " ++ numLabel ++ " is now active: " ++ desc
            .next { st with
                    scratch := sc2,
                    messages := st.messages ++ [mkTool tc.id (jsonDumps (.obj
                      [("status", .str "success"), ("task_number", taskNumber),
                       ("message", .str respMsg)]))] }
          | .queueEmpty =>
            if L.skillNames.contains "answer" then
              match activateSkillParts L "answer" "" "Skill 'answer' activated." with
              | .ok (_, tools, amsg) =>
                let respMsg := "Task " ++ pyStrJson taskNumber ++
                  " marked as complete. All tasks completed!\n\n" ++ amsg ++
                  "\n\nYou can now synthesize results, verify citations, and submit your final answer."
                .next { st with
                        scratch := sc2, activeSkill := some "answer",
                        activeTools := tools,
                        messages := st.messages ++ [mkTool tc.id (jsonDumps (.obj
                          [("status", .str "success"), ("task_number", taskNumber),
                           ("message", .str respMsg)]))] }
              | .error e => .raised e st  -- unreachable: membership was just checked
            else
              let respMsg := "Task " ++ pyStrJson taskNumber ++
                " marked as complete. No more tasks remaining."
              .next { st with
                      scratch := sc2,
                      messages := st.messages ++ [mkTool tc.id (jsonDumps (.obj
                        [("status", .str "success"), ("task_number", taskNumber),
                         ("message", .str respMsg)]))] }
          | .notFound =>
            .next { st with
                    scratch := sc2,
                    messages := st.messages ++ [mkTool tc.id (jsonDumps (.obj
                      [("status", .str "error"),
                       ("message", .str ("Task " ++ pyStrJson taskNumber ++
                         " not found in incomplete_tasks"))]))] }
  else
    -- skill-script execution (guarded by `if active_skill:`; with no active
    -- skill the source appends nothing and the call is dropped)
    if pyTruthyOptStr st.activeSkill then
      let skill := st.activeSkill.getD ""
      let (result, sc2) := env.execScript skill tc.name functionArgs st.scratch
      let st2 := { st with scratch := sc2, liveBound := true,
                           trace := st.trace ++ [.scriptExec skill tc.name],
                           messages := st.messages ++ [mkTool tc.id (jsonDumps result)] }
      let isFinal :=
        match objGet result "status" with
        | some (.str s) => s == "FINAL_ANSWER_SUBMITTED"
        | _ => false
      if isFinal then
        match objGet result "final_answer" with
        | some (.str finalAnswer) =>
          let fin := finalizeResponse (L.skillNames.contains "finalize")
            sc2.urlCache env.judge env.catboxUrl finalAnswer
          if fin.2 then .next (appendMsg st2 (mkUser linkRetryText))
          else .finalReturn fin.1 st2
        | none =>
          -- result.get('final_answer', '') defaults to the empty string
          let fin := finalizeResponse (L.skillNames.contains "finalize")
            sc2.urlCache env.judge env.catboxUrl ""
          if fin.2 then .next (appendMsg st2 (mkUser linkRetryText))
          else .finalReturn fin.1 st2
        | some _ =>
          -- a non-string final answer raises inside _create_html_report
          .raised .typeError st2
      else .next st2
    else .next st

/-- Result of processing a whole tool-call batch. -/
inductive CallsOut where
  | done (st : LoopState)
  | finalReturn (answer : String) (st : LoopState)
  | raised (e : PyErr) (st : LoopState)
deriving Repr

/-- The `for tool_call in message.tool_calls` loop. -/
def processCalls (env : Env) (L : Loader) : LoopState → List ToolCall → CallsOut
  | st, [] => .done st
  | st, tc :: rest =>
    match dispatchCall env L st tc with
    | .next st2 => processCalls env L st2 rest
    | .finalReturn a st2 => .finalReturn a st2
    | .raised e st2 => .raised e st2

/-! ## The per-iteration body after a model reply (`run`, lines 1113–1682) -/

/-- The pre-execution scan for malformed tool-call arguments
(`"_parse_error" in test_parse`, which can itself raise a `TypeError` when
the decoded arguments are a number, boolean or null). -/
def scanParseErrors : List ToolCall → Except PyErr Bool
  | [] => .ok false
  | tc :: rest =>
    match pyInJson "_parse_error" (safeParseJson tc.args) with
    | .error e => .error e
    | .ok true => .ok true
    | .ok false => scanParseErrors rest

/-- Outcome of one loop-body run on a model reply. -/
inductive BodyOut where
  | continueLoop (st : LoopState)
  | finalReturn (answer : String) (st : LoopState)
  | raised (e : PyErr) (st : LoopState)
deriving Repr

/-- The no-tool-call branch: refuse to finish while task files remain (inject
the reminder), wait for the answer skill's content, force-activate the answer
skill, or finalize and return the model's text. -/
def noToolCallBranch (env : Env) (L : Loader) (st : LoopState)
    (content : Option String) : BodyOut :=
  let taskFiles := sortedTaskFiles st.scratch.incomplete
  if !taskFiles.isEmpty then
    .continueLoop (appendMsg st (mkUser (reminderText taskFiles)))
  else if st.activeSkill == some "answer" && content.isNone then
    .continueLoop st
  else if !(st.activeSkill == some "answer") && L.skillNames.contains "answer" then
    match activateSkillParts L "answer" ""
        "All tasks are complete.\n\nSkill 'answer' activated." with
    | .ok (_, tools, amsg) =>
      .continueLoop { st with
                      activeSkill := some "answer", activeTools := tools,
                      messages := st.messages ++ [mkUser (amsg ++
                        "\n\nYou must now synthesize the results and submit your final answer.")] }
    | .error e => .raised e st  -- unreachable: membership was just checked
  else
    let finalResponse :=
      match content with
      | some c => if c == "" then "I've completed the task." else c
      | none => "I've completed the task."
    let st2 := appendMsg st (mkAssistant (some finalResponse))
    if !st2.liveBound then
      -- _finalize_response(..., live=live) with `live` never having been
      -- bound (non-tty mode, no prior script execution): NameError
      .raised .nameError st2
    else
      let fin := finalizeResponse (L.skillNames.contains "finalize")
        st2.scratch.urlCache env.judge env.catboxUrl finalResponse
      if fin.2 then .continueLoop (appendMsg st2 (mkUser linkRetryText))
      else .finalReturn fin.1 st2

/-- The loop body applied to one model reply: the malformed-arguments check
and placeholder/corrective injection, else append the assistant message and
execute the batch, else the no-tool-call branch. -/
def afterModelResponse (env : Env) (L : Loader) (st : LoopState)
    (content : Option String) (toolCalls : List ToolCall) : BodyOut :=
  if !toolCalls.isEmpty then
    match scanParseErrors toolCalls with
    | .error e => .raised e st
    | .ok true =>
      .continueLoop { st with
                      messages := st.messages ++
                        [mkAssistant (some placeholderAssistantText),
                         mkUser malformedJsonCorrectiveText] }
    | .ok false =>
      let st2 := { st with messages := st.messages ++ [mkAssistantCalls content toolCalls] }
      match processCalls env L st2 toolCalls with
      | .done st3 => .continueLoop st3
      | .finalReturn a st3 => .finalReturn a st3
      | .raised e st3 => .raised e st3
  else noToolCallBranch env L st content

/-! ## The iteration loop (`run`, lines 934–1710) -/

/-- Is this exception string the rate-limit signal the loop retries on
(`'429' in error_str and 'Rate limit exceeded' in error_str`)? -/
def isRateLimit (msg : String) : Bool :=
  pySubstr "429" msg && pySubstr "Rate limit exceeded" msg

/-- Result of obtaining one model reply, including retries. -/
structure CallAttempt where
  st : LoopState
  callIdx : Nat
  retriesLeft : Nat
  outcome : Except String (Option String × List ToolCall)

/-- The state bookkeeping of one model call: record the call against its
iteration number, and in interactive mode the `with Live(...) as live` block
binds `live`. -/
def recordCall (env : Env) (iterNum : Nat) (st0 : LoopState) : LoopState :=
  { st0 with trace := st0.trace ++ [.modelCall iterNum],
             liveBound := st0.liveBound || env.isatty }

/-- The model call with the interactive-mode rate-limit retry loop.
`retriesLeft = 4 - rate_limit_retries`; the Python retries while
`rate_limit_retries + 1 <= 3`, i.e. while `retriesLeft ≥ 2` (for
`retriesLeft = n + 1`, while `n ≥ 1`), decrementing the budget.  In
non-interactive mode (`not isatty`) the call is made without any retry
handling, so any failure — rate limited or not — is raised at once.  The
60-second backoff sleep is timing and not modelled.  (`retriesLeft = 0`
cannot arise: the budget starts at 4 and the recursion stops at 1.) -/
def tryCalls (env : Env) (iterNum : Nat) : Nat → Nat → LoopState → CallAttempt
  | callIdx, 0, st0 =>
    let st := recordCall env iterNum st0
    match env.oracle callIdx with
    | .reply c tcs => ⟨st, callIdx + 1, 0, .ok (c, tcs)⟩
    | .failure m => ⟨st, callIdx + 1, 0, .error m⟩
  | callIdx, n + 1, st0 =>
    let st := recordCall env iterNum st0
    match env.oracle callIdx with
    | .reply c tcs => ⟨st, callIdx + 1, n + 1, .ok (c, tcs)⟩
    | .failure m =>
      if env.isatty && isRateLimit m then
        if 1 ≤ n then tryCalls env iterNum (callIdx + 1) n st
        else ⟨st, callIdx + 1, n + 1, .error m⟩
      else ⟨st, callIdx + 1, n + 1, .error m⟩

/-- The `while iteration < max_iterations` loop.  `remaining` counts the
iterations left, `iterNum` is the 1-based iteration number about to run.
Every Python exception inside the body is caught by the `except` of the body
and turned into an `"Error: " ++ str(e)` return; exhausting the budget falls
through to the best-effort answer extraction plus finalization. -/
def runLoop (env : Env) (L : Loader) :
    Nat → Nat → Nat → Nat → LoopState → String × LoopState
  | 0, _, _, _, st =>
    let fr :=
      match st.messages.reverse.find? (fun m =>
        m.role == .assistant && pyTruthyOptStr m.content &&
        !(pySubstr "Skill '" (m.content.getD "") &&
          pySubstr "activated" (m.content.getD "") &&
          pySubstr "Instructions:" (m.content.getD ""))) with
      | some m => m.content.getD ""
      | none => "Maximum iterations reached. Unable to complete the request."
    let fin := finalizeResponse (L.skillNames.contains "finalize")
      st.scratch.urlCache env.judge env.catboxUrl fr
    (fin.1, st)
  | remaining + 1, iterNum, callIdx, retriesLeft, st =>
    let att := tryCalls env iterNum callIdx retriesLeft st
    match att.outcome with
    | .error m => ("Error: " ++ m, att.st)
    | .ok (c, tcs) =>
      match afterModelResponse env L att.st c tcs with
      | .continueLoop st2 => runLoop env L remaining (iterNum + 1) att.callIdx att.retriesLeft st2
      | .finalReturn a st2 => (a, st2)
      | .raised e st2 => ("Error: " ++ pyErrStr e, st2)

/-- `AgentSkillsFramework.run`: reset the scratch area, reset the
conversation to the system message plus the user input, auto-activate the
planning skill (which raises `TypeError` when no `planning` skill is loaded —
this happens before the loop's `try` and so escapes `run`), then iterate.
Environmental I/O failures of the setup (directory removal, file writes) are
not modelled. -/
def run (env : Env) (L : Loader) (systemMsg userInput : String)
    (maxIterations : Nat) : Except PyErr (String × LoopState) :=
  let sc := emptyScratch
  let msgs := [mkSystem systemMsg, mkUser userInput]
  match activateSkillParts L "planning" (currentTaskInfo sc)
      "Skill 'planning' activated." with
  | .error e => .error e
  | .ok (_, tools, amsg) =>
    let st : LoopState :=
      { messages := msgs ++ [mkAssistant (some amsg)],
        activeSkill := some "planning", activeTools := tools,
        scratch := sc, liveBound := false, trace := [] }
    .ok (runLoop env L maxIterations 1 0 4 st)

/-! ## Concrete fixtures used by witnesses and counterexamples -/

/-- A minimal environment: skill scripts echo a fixed result, the citation
judge accepts, no report upload, interactive terminal, and the model always
answers with plain text. -/
def sampleEnv : Env :=
  { execScript := fun _ _ _ sc => (.obj [("result", .str "ok")], sc)
    judge := fun _ _ _ => ⟨true, "supported", "high"⟩
    catboxUrl := none
    isatty := true
    oracle := fun _ => .reply (some "done") [] }

/-- A loader with the planning, web, answer and finalize skills. -/
def sampleLoader : Loader :=
  { skills := [("planning", "Plan the work"), ("web", "Browse the web"),
               ("answer", "Submit the final answer"), ("finalize", "Verify links")]
    instructionsOf := fun n => "Use the " ++ n ++ " skill."
    toolsOf := fun n => [n ++ "_tool"] }

/-- A loader with no `planning` skill. -/
def noPlanningLoader : Loader :=
  { sampleLoader with skills := [("web", "Browse the web")] }

/-- A mid-run loop state with the planning skill active and an empty queue. -/
def sampleState : LoopState :=
  { messages := [mkSystem "sys", mkUser "question"]
    activeSkill := some "planning"
    activeTools := ["planning_tool"]
    scratch := emptyScratch
    liveBound := true
    trace := [] }

/-- A scratch area with ten queued tasks (task 1 active). -/
def tenTaskScratch : Scratch :=
  { incomplete := [("task_1.txt", "a"), ("task_2.txt", "b"), ("task_3.txt", "c"),
                   ("task_4.txt", "d"), ("task_5.txt", "e"), ("task_6.txt", "f"),
                   ("task_7.txt", "g"), ("task_8.txt", "h"), ("task_9.txt", "i"),
                   ("task_10.txt", "j")]
    completed := []
    currentTask := some ⟨some 1, some "a", "active"⟩
    urlCache := [] }

/-- An exception text carrying the rate-limit signal. -/
def rateLimitMsg : String := "Error code: 429 - Rate limit exceeded"

/-- A scratch area with two queued tasks (task 1 active). -/
def twoTaskScratch : Scratch :=
  { incomplete := [("task_1.txt", "find X"), ("task_2.txt", "find Y")]
    completed := []
    currentTask := some ⟨some 1, some "find X", "active"⟩
    urlCache := [] }

/-- A mid-run state whose queue holds the two tasks. -/
def twoTaskState : LoopState := { sampleState with scratch := twoTaskScratch }

/-- A candidate answer citing a url for which nothing is cached. -/
def c5Response : String := "According to https://ex.example/a the value is 42."

/-- An interactive environment whose model calls always hit the rate limit. -/
def rateLimitEnv : Env :=
  { sampleEnv with oracle := fun _ => .failure rateLimitMsg }

/-- The same rate-limited environment without a terminal. -/
def nonTtyRateLimitEnv : Env :=
  { rateLimitEnv with isatty := false }

/-! # Theorems -/

set_option maxRecDepth 16384

/-! ## Decimal-numeral injectivity -/

theorem decDigit_toNat {d : Nat} (h : d < 10) : (decDigit d).toNat = 48 + d := by
  interval_cases d <;> rfl

theorem digitsVal_digitsRev : ∀ fuel n, n < fuel → digitsVal (digitsRev fuel n) = n := by
  intro fuel
  induction fuel with
  | zero => omega
  | succ f ih =>
    intro n h
    unfold digitsRev
    by_cases h10 : n < 10
    · simp only [h10, if_true, digitsVal, decDigit_toNat h10]
      omega
    · have hdiv : n / 10 < f := by
        have : n / 10 < n := Nat.div_lt_self (by omega) (by omega)
        omega
      have hm : n % 10 < 10 := Nat.mod_lt n (by omega)
      simp only [h10, if_false, digitsVal, ih _ hdiv, decDigit_toNat hm]
      omega

theorem natStr_injective : Function.Injective natStr := by
  intro m n h
  have hd : (digitsRev (m + 1) m).reverse = (digitsRev (n + 1) n).reverse := by
    have := congrArg String.data h
    simpa [natStr] using this
  have hrev := congrArg List.reverse hd
  simp only [List.reverse_reverse] at hrev
  have hm := digitsVal_digitsRev (m + 1) m (by omega)
  have hn := digitsVal_digitsRev (n + 1) n (by omega)
  rw [hrev, hn] at hm
  omega

theorem taskFileName_injective : Function.Injective taskFileName := by
  intro m n h
  apply natStr_injective
  have hdata := congrArg String.data h
  simp only [taskFileName, String.data_append] at hdata
  have h2 := List.append_cancel_right hdata
  have h3 := List.append_cancel_left h2
  cases hm : natStr m with
  | mk dm =>
    cases hn : natStr n with
    | mk dn =>
      rw [hm, hn] at h3
      simp only at h3
      rw [h3]

/-! ## Freshness of the numbering scan -/

theorem contains_false_iff (l : List String) (a : String) :
    l.contains a = false ↔ a ∉ l := by
  constructor
  · intro h hmem
    have ht := List.elem_iff.mpr hmem
    have h2 : List.elem a l = false := h
    rw [ht] at h2
    cases h2
  · intro h
    cases hval : l.contains a with
    | false => rfl
    | true => exact absurd (List.elem_iff.mp hval) h

theorem scanTaskNum_free (names : List String) :
    ∀ fuel k, (∃ m, k ≤ m ∧ m < k + fuel ∧ names.contains (taskFileName m) = false) →
      names.contains (taskFileName (scanTaskNum names fuel k)) = false := by
  intro fuel
  induction fuel with
  | zero =>
    rintro k ⟨m, h1, h2, _⟩
    omega
  | succ f ih =>
    rintro k ⟨m, h1, h2, h3⟩
    unfold scanTaskNum
    by_cases hc : names.contains (taskFileName k) = true
    · rw [if_pos hc]
      apply ih (k + 1)
      refine ⟨m, ?_, by omega, h3⟩
      rcases Nat.eq_or_lt_of_le h1 with heq | hlt
      · subst heq
        rw [hc] at h3
        cases h3
      · omega
    · rw [if_neg hc]
      simpa using hc

theorem exists_free_taskNum (names : List String) :
    ∃ m, 1 ≤ m ∧ m < 1 + (names.length + 1) ∧
      names.contains (taskFileName m) = false := by
  by_contra hcon
  push_neg at hcon
  have hmem : ∀ i ∈ Finset.range (names.length + 1), taskFileName (i + 1) ∈ names := by
    intro i hi
    simp only [Finset.mem_range] at hi
    have hne := hcon (i + 1) (by omega) (by omega)
    have hc : names.contains (taskFileName (i + 1)) = true := by
      cases hval : names.contains (taskFileName (i + 1)) with
      | false => exact absurd hval hne
      | true => rfl
    exact List.elem_iff.mp hc
  have hinj : Function.Injective (fun i : ℕ => taskFileName (i + 1)) := by
    intro a b hab
    have := taskFileName_injective hab
    omega
  have hsub : (Finset.range (names.length + 1)).image (fun i => taskFileName (i + 1)) ⊆
      names.toFinset := by
    intro x hx
    rcases Finset.mem_image.mp hx with ⟨i, hi, rfl⟩
    exact List.mem_toFinset.mpr (hmem i hi)
  have hcard := Finset.card_le_card hsub
  rw [Finset.card_image_of_injective _ hinj, Finset.card_range] at hcard
  have hlen := List.toFinset_card_le names
  omega

theorem nextTaskNum_free (names : List String) :
    names.contains (taskFileName (nextTaskNum names)) = false :=
  scanTaskNum_free names _ 1 (exists_free_taskNum names)

/-- The `bin.any` existence test of `writeFile` agrees with `contains` on the
name listing. -/
theorem any_fst_eq_contains (bin : List (String × String)) (name : String) :
    bin.any (fun kv => kv.1 == name) = (binNames bin).contains name := by
  induction bin with
  | nil => rfl
  | cons kv rest ih =>
    simp only [List.any_cons, binNames, List.map_cons, List.contains_cons] at *
    rw [ih]
    congr 1
    simp [BEq.comm]

theorem binNames_writeFile_fresh (bin : List (String × String)) (name contents : String)
    (h : (binNames bin).contains name = false) :
    binNames (writeFile bin name contents) = binNames bin ++ [name] := by
  unfold writeFile
  rw [any_fst_eq_contains, h]
  simp [binNames]

/-! ## `create_subquestion_tasks`: per-call numbering is fresh and duplicate-free -/

theorem createTasks_spec : ∀ (descs : List String) (sc : Scratch),
    ((createTasksFromList sc descs).2.map (fun p => taskFileName p.1)).Nodup ∧
    (∀ p ∈ (createTasksFromList sc descs).2,
      (binNames sc.incomplete).contains (taskFileName p.1) = false) ∧
    binNames (createTasksFromList sc descs).1.incomplete =
      binNames sc.incomplete ++ (createTasksFromList sc descs).2.map (fun p => taskFileName p.1) := by
  intro descs
  induction descs with
  | nil =>
    intro sc
    simp [createTasksFromList]
  | cons d rest ih =>
    intro sc
    have hfresh := nextTaskNum_free (binNames sc.incomplete)
    set n := nextTaskNum (binNames sc.incomplete) with hn
    set sc2 : Scratch :=
      { sc with incomplete := writeFile sc.incomplete (taskFileName n) d } with hsc2
    have hnames2 : binNames sc2.incomplete = binNames sc.incomplete ++ [taskFileName n] := by
      simpa [hsc2] using binNames_writeFile_fresh sc.incomplete (taskFileName n) d hfresh
    obtain ⟨ihnodup, ihfresh, ihnames⟩ := ih sc2
    have hunfold : createTasksFromList sc (d :: rest) =
        ((createTasksFromList sc2 rest).1, (n, d) :: (createTasksFromList sc2 rest).2) := by
      simp only [createTasksFromList]
    rw [hunfold]
    refine ⟨?_, ?_, ?_⟩
    · simp only [List.map_cons, List.nodup_cons]
      refine ⟨?_, ihnodup⟩
      intro hmemmap
      rcases List.mem_map.mp hmemmap with ⟨p, hp, hpe⟩
      have hfree := ihfresh p hp
      rw [hnames2, contains_false_iff] at hfree
      exact hfree (by simp [hpe])
    · intro p hp
      rcases List.mem_cons.mp hp with rfl | hp2
      · exact hfresh
      · have hfree := ihfresh p hp2
        rw [hnames2, contains_false_iff] at hfree
        rw [contains_false_iff]
        intro hmem
        exact hfree (by simp [hmem])
    · rw [ihnames, hnames2]
      simp

/-! ## Claim C2: task numbering -/

/-- C2 (amended): within a single `create_subquestion_tasks` call the created
tasks receive pairwise distinct numbers, each fresh with respect to the tasks
then present in the incomplete bin; numbering is scan-and-increment over the
incomplete bin only, so numbers of completed tasks can be reused by later
creations (see the counterexample). -/
theorem c2_create_numbers_fresh_within_call (descs : List String) (sc : Scratch) :
    ((createTasksFromList sc descs).2.map Prod.fst).Nodup ∧
    ∀ p ∈ (createTasksFromList sc descs).2,
      (binNames sc.incomplete).contains (taskFileName p.1) = false := by
  obtain ⟨h1, h2, _⟩ := createTasks_spec descs sc
  refine ⟨?_, h2⟩
  have hmm : (createTasksFromList sc descs).2.map (fun p => taskFileName p.1) =
      ((createTasksFromList sc descs).2.map Prod.fst).map taskFileName := by
    rw [List.map_map]
    rfl
  rw [hmm] at h1
  exact h1.of_map

/-- C2 counterexample: `create ["find X"]` assigns number 1, completing task 1
empties the bin, and the next `create ["find Y"]` assigns number 1 again —
two created tasks share a `task_number` within one run. -/
theorem c2_counterexample_number_reuse :
    (createSubquestionTasksList ["find X"] emptyScratch).2.1 = [(1, "find X")] ∧
    completeTaskCore (createSubquestionTasksList ["find X"] emptyScratch).1
        (.num 1 false) (.str "done") =
      .ok (⟨[], [("task_1.txt", "done")], some ⟨none, none, "none"⟩, []⟩, .queueEmpty) ∧
    (createSubquestionTasksList ["find Y"]
        ⟨[], [("task_1.txt", "done")], some ⟨none, none, "none"⟩, []⟩).2.1 = [(1, "find Y")] :=
  ⟨rfl, by rfl, rfl⟩

/-! ## Claim C3: complete_task auto-advance -/

/-- C3 (amended): when `complete_task` succeeds on a queued task, the new
`CURRENT_TASK.txt` (the single activity marker, so at most one task is ever
active) points to the remaining incomplete task whose filename is
lexicographically smallest — which is the numerically lowest number only
while no numbers of differing digit count remain (e.g. `task_10.txt` sorts
before `task_2.txt`); if no incomplete task remains, the marker is cleared to
status `"none"`. -/
theorem c3_complete_task_advance (sc sc2 : Scratch) (tn res : Json) (note : CompleteNote)
    (hok : completeTaskCore sc tn res = .ok (sc2, note))
    (hfound : note ≠ .notFound) :
    match sortStrings ((binNames (removeFile sc.incomplete
        ("task_" ++ pyStrJson tn ++ ".txt"))).filter isTaskFileName) with
    | next :: _ => ∃ m, pyIntOfString (taskNumLabel next) = some m ∧
        sc2.currentTask = some ⟨some m,
          some (pyStrip ((lookupFile (removeFile sc.incomplete
            ("task_" ++ pyStrJson tn ++ ".txt")) next).getD "")), "active"⟩
    | [] => sc2.currentTask = some ⟨none, none, "none"⟩ := by
  unfold completeTaskCore at hok
  by_cases hex : (lookupFile sc.incomplete ("task_" ++ pyStrJson tn ++ ".txt")).isSome
  · rw [if_pos hex] at hok
    cases res with
    | str resultText =>
      simp only at hok
      cases hrem : sortStrings ((binNames (removeFile sc.incomplete
          ("task_" ++ pyStrJson tn ++ ".txt"))).filter isTaskFileName) with
      | nil =>
        rw [hrem] at hok
        simp only at hok
        cases hok
        simp
      | cons next rest =>
        rw [hrem] at hok
        simp only at hok
        cases hint : pyIntOfString (taskNumLabel next) with
        | none =>
          rw [show taskNumLabel next = pyReplace (pyReplace next "task_" "") ".txt" "" from rfl]
            at hint
          rw [hint] at hok
          cases hok
        | some m =>
          rw [show taskNumLabel next = pyReplace (pyReplace next "task_" "") ".txt" "" from rfl]
            at hint
          rw [hint] at hok
          simp only at hok
          cases hok
          exact ⟨m, by rw [show taskNumLabel next =
            pyReplace (pyReplace next "task_" "") ".txt" "" from rfl, hint], by simp⟩
    | null => cases hok
    | bool b => cases hok
    | num q f => cases hok
    | nan => cases hok
    | inf n => cases hok
    | arr es => cases hok
    | obj fs => cases hok
  · rw [if_neg hex] at hok
    cases hok
    exact absurd rfl hfound

/-- C3 witness: completing task 1 of the two-task queue activates task 2. -/
theorem c3_complete_task_advance_witness :
    (match sortStrings ((binNames (removeFile twoTaskScratch.incomplete
        ("task_" ++ pyStrJson (.num 1 false) ++ ".txt"))).filter isTaskFileName) with
    | next :: _ => ∃ m, pyIntOfString (taskNumLabel next) = some m ∧
        (⟨[("task_2.txt", "find Y")], [("task_1.txt", "done X")],
          some ⟨some 2, some "find Y", "active"⟩, []⟩ : Scratch).currentTask =
          some ⟨some m,
            some (pyStrip ((lookupFile (removeFile twoTaskScratch.incomplete
              ("task_" ++ pyStrJson (.num 1 false) ++ ".txt")) next).getD "")), "active"⟩
    | [] => (⟨[("task_2.txt", "find Y")], [("task_1.txt", "done X")],
          some ⟨some 2, some "find Y", "active"⟩, []⟩ : Scratch).currentTask =
        some ⟨none, none, "none"⟩) :=
  c3_complete_task_advance twoTaskScratch _ (.num 1 false) (.str "done X")
    (.nextActivated 2 "2" "find Y") (by rfl) (by decide)

/-- C3 counterexample: with tasks 2 … 10 remaining after completing task 1,
the code activates task 10 (lexicographically smallest filename), not the
numerically lowest task 2, which stays queued. -/
theorem c3_counterexample_lexicographic_advance :
    completeTaskCore tenTaskScratch (.num 1 false) (.str "r") =
      .ok (⟨[("task_2.txt", "b"), ("task_3.txt", "c"), ("task_4.txt", "d"),
             ("task_5.txt", "e"), ("task_6.txt", "f"), ("task_7.txt", "g"),
             ("task_8.txt", "h"), ("task_9.txt", "i"), ("task_10.txt", "j")],
            [("task_1.txt", "r")],
            some ⟨some 10, some "j", "active"⟩, []⟩, .nextActivated 10 "10" "j") ∧
    lookupFile [("task_2.txt", "b"), ("task_3.txt", "c"), ("task_4.txt", "d"),
             ("task_5.txt", "e"), ("task_6.txt", "f"), ("task_7.txt", "g"),
             ("task_8.txt", "h"), ("task_9.txt", "i"), ("task_10.txt", "j")]
        "task_2.txt" = some "b" ∧
    ¬ ((10 : Int) = 2) :=
  ⟨by rfl, rfl, by decide⟩

/-! ## Claim C1: completion blocked while the queue is non-empty -/

/-- C1: in any iteration where the model returns no tool calls while at least
one `task_*.txt` file remains in the incomplete bin, the loop body does not
produce a final answer: it appends exactly one user-role reminder listing the
outstanding tasks and continues to the next iteration. -/
theorem c1_no_toolcalls_blocked_on_tasks (env : Env) (L : Loader) (st : LoopState)
    (content : Option String)
    (h : sortedTaskFiles st.scratch.incomplete ≠ []) :
    afterModelResponse env L st content [] =
      .continueLoop (appendMsg st (mkUser (reminderText (sortedTaskFiles st.scratch.incomplete)))) := by
  have hne : (sortedTaskFiles st.scratch.incomplete).isEmpty = false := by
    cases hval : (sortedTaskFiles st.scratch.incomplete).isEmpty
    · rfl
    · exact absurd (List.isEmpty_iff.mp hval) h
  unfold afterModelResponse noToolCallBranch
  simp [hne]

/-- C1 witness: with tasks 1 and 2 queued, a plain-text model turn yields the
reminder and loops. -/
theorem c1_no_toolcalls_blocked_on_tasks_witness :
    sortedTaskFiles twoTaskState.scratch.incomplete ≠ [] ∧
    afterModelResponse sampleEnv sampleLoader twoTaskState (some "Here is my answer") [] =
      .continueLoop (appendMsg twoTaskState
        (mkUser (reminderText (sortedTaskFiles twoTaskState.scratch.incomplete)))) :=
  ⟨by decide, c1_no_toolcalls_blocked_on_tasks sampleEnv sampleLoader twoTaskState
    (some "Here is my answer") (by decide)⟩

/-! ## Claim C4: malformed tool-call arguments -/

/-- C4 (amended): for every model response whose tool-call batch the
malformed-arguments scan flags — some call's arguments fail both direct JSON
parsing and the first-balanced-block salvage of `_safe_parse_json` — the loop
neither crashes nor silently drops the turn: the assistant message is
replaced by the neutral placeholder, the corrective retry instruction is
appended as a user message, no tool is executed, and the loop continues.
(Arguments that are invalid JSON but contain a salvageable first `{...}`
block are instead repaired and executed; see the counterexample.) -/
theorem c4_malformed_arguments_replaced (env : Env) (L : Loader) (st : LoopState)
    (content : Option String) (tcs : List ToolCall)
    (h : scanParseErrors tcs = .ok true) :
    afterModelResponse env L st content tcs =
      .continueLoop { st with
                      messages := st.messages ++
                        [mkAssistant (some placeholderAssistantText),
                         mkUser malformedJsonCorrectiveText] } := by
  have hne : tcs.isEmpty = false := by
    cases tcs with
    | nil => rw [show scanParseErrors [] = .ok false from rfl] at h; cases h
    | cons a l => rfl
  unfold afterModelResponse
  rw [hne, h]
  rfl

/-- C4 witness: a batch whose only call has wholly unparseable arguments is
replaced by the placeholder and corrective messages. -/
theorem c4_malformed_arguments_replaced_witness :
    scanParseErrors [⟨"call1", "search", "not json at all"⟩] = .ok true ∧
    afterModelResponse sampleEnv sampleLoader sampleState none
        [⟨"call1", "search", "not json at all"⟩] =
      .continueLoop { sampleState with
                      messages := sampleState.messages ++
                        [mkAssistant (some placeholderAssistantText),
                         mkUser malformedJsonCorrectiveText] } :=
  ⟨by rfl, c4_malformed_arguments_replaced sampleEnv sampleLoader sampleState none
    [⟨"call1", "search", "not json at all"⟩] (by rfl)⟩

/-- C4 counterexample: the arguments string `{"a": 1} trailing` is not
parseable JSON (`json.loads` raises on the trailing text), yet
`_safe_parse_json` salvages the first balanced block, so the loop executes
the call and appends the original assistant message with its tool_calls —
no placeholder, no corrective message. -/
theorem c4_counterexample_salvaged_arguments :
    jsonLoads "\x7b\"a\": 1\x7d trailing" = none ∧
    afterModelResponse sampleEnv sampleLoader sampleState (some "x")
        [⟨"call1", "list_skills", "\x7b\"a\": 1\x7d trailing"⟩] =
      .continueLoop { sampleState with
                      messages := sampleState.messages ++
                        [mkAssistantCalls (some "x")
                          [⟨"call1", "list_skills", "\x7b\"a\": 1\x7d trailing"⟩],
                         mkTool "call1"
                           "Available skills:\n\n- **planning**: Plan the work\n- **web**: Browse the web\n- **answer**: Submit the final answer\n- **finalize**: Verify links"],
                      trace := [.dispatched "list_skills"] } :=
  ⟨by rfl, by rfl⟩

/-! ## Claim C10: all-or-nothing discard of tool-call batches -/

theorem scanParseErrors_ok_false {l : List ToolCall}
    (h : scanParseErrors l = .ok false) :
    ∀ tc ∈ l, pyInJson "_parse_error" (safeParseJson tc.args) ≠ .ok true := by
  induction l with
  | nil => intro tc htc; cases htc
  | cons a rest ih =>
    intro tc htc
    unfold scanParseErrors at h
    cases hin : pyInJson "_parse_error" (safeParseJson a.args) with
    | error e => rw [hin] at h; cases h
    | ok b =>
      cases b with
      | true => rw [hin] at h; cases h
      | false =>
        rw [hin] at h
        rcases List.mem_cons.mp htc with rfl | hmem
        · rw [hin]; intro hcon; cases hcon
        · exact ih h tc hmem

/-- C10 (amended): if any tool call in an assistant message has arguments the
malformed-arguments scan flags — arguments that fail direct JSON parsing AND
the first-balanced-block salvage of `_safe_parse_json` — the batch is
discarded all-or-nothing: no tool call of the message is dispatched
(including siblings with valid JSON — the trace gains no event), and the
original assistant message with its `tool_calls` is never added to the
history; either the placeholder/corrective pair is appended, or (when
scanning an earlier call's decoded arguments raises) nothing is.  Arguments
that are unparseable JSON but carry a salvageable first `\x7b...\x7d` block
escape the scan: they are repaired and executed, with the original assistant
message entering history — see the counterexample. -/
theorem c10_batch_discarded_all_or_nothing (env : Env) (L : Loader) (st : LoopState)
    (content : Option String) (tcs : List ToolCall)
    (h : ∃ tc ∈ tcs, pyInJson "_parse_error" (safeParseJson tc.args) = .ok true) :
    match afterModelResponse env L st content tcs with
    | .continueLoop st2 => st2.trace = st.trace ∧
        st2.messages = st.messages ++
          [mkAssistant (some placeholderAssistantText), mkUser malformedJsonCorrectiveText]
    | .raised _ st2 => st2.trace = st.trace ∧ st2.messages = st.messages
    | .finalReturn _ _ => False := by
  obtain ⟨tc, htc, hflag⟩ := h
  have hne : tcs.isEmpty = false := by
    cases tcs with
    | nil => cases htc
    | cons a l => rfl
  unfold afterModelResponse
  rw [hne]
  cases hscan : scanParseErrors tcs with
  | error e => simp
  | ok b =>
    cases b with
    | true => simp
    | false => exact absurd hflag (scanParseErrors_ok_false hscan tc htc)

/-- C10 witness: a batch with a valid `list_skills` call and a malformed
sibling is discarded whole — the valid sibling is not executed either. -/
theorem c10_batch_discarded_all_or_nothing_witness :
    (∃ tc ∈ [(⟨"1", "list_skills", "\x7b\x7d"⟩ : ToolCall),
             ⟨"2", "search", "garbage"⟩],
      pyInJson "_parse_error" (safeParseJson tc.args) = .ok true) ∧
    (match afterModelResponse sampleEnv sampleLoader sampleState none
        [⟨"1", "list_skills", "\x7b\x7d"⟩, ⟨"2", "search", "garbage"⟩] with
    | .continueLoop st2 => st2.trace = sampleState.trace ∧
        st2.messages = sampleState.messages ++
          [mkAssistant (some placeholderAssistantText), mkUser malformedJsonCorrectiveText]
    | .raised _ st2 => st2.trace = sampleState.trace ∧ st2.messages = sampleState.messages
    | .finalReturn _ _ => False) :=
  ⟨⟨⟨"2", "search", "garbage"⟩, by simp, by rfl⟩,
   c10_batch_discarded_all_or_nothing sampleEnv sampleLoader sampleState none
    [⟨"1", "list_skills", "\x7b\x7d"⟩, ⟨"2", "search", "garbage"⟩]
    ⟨⟨"2", "search", "garbage"⟩, by simp, by rfl⟩⟩

/-- C10 counterexample: the arguments string `\x7b"k": 2\x7d tail` is
unparseable JSON (`json.loads` raises on the trailing text), so the original
claim promises the batch is discarded and the assistant message withheld; but
the salvage step of `_safe_parse_json` repairs it, the scan does not flag the
batch, the call IS dispatched (the trace gains the event) and the original
assistant message with its `tool_calls` IS appended to the history. -/
theorem c10_counterexample_salvageable_executed :
    jsonLoads "\x7b\"k\": 2\x7d tail" = none ∧
    afterModelResponse sampleEnv sampleLoader sampleState (some "y")
        [⟨"cA", "list_skills", "\x7b\"k\": 2\x7d tail"⟩] =
      .continueLoop { sampleState with
                      messages := sampleState.messages ++
                        [mkAssistantCalls (some "y")
                          [⟨"cA", "list_skills", "\x7b\"k\": 2\x7d tail"⟩],
                         mkTool "cA"
                           "Available skills:\n\n- **planning**: Plan the work\n- **web**: Browse the web\n- **answer**: Submit the final answer\n- **finalize**: Verify links"],
                      trace := [.dispatched "list_skills"] } :=
  ⟨by rfl, by rfl⟩

/-! ## Claim C9: activation of an unknown skill -/

/-- C9 (amended): for every `activate_<name>` tool call for which the name
the code computes — the call name with every occurrence of `"activate_"`
deleted, as `str.replace` does — is not a loaded skill, the loop appends a
tool-role error message and leaves the active skill, its tool set and the
scratch state exactly as they were, continuing with the next call.  (For
names themselves containing `"activate_"` the computed name differs from
`<name>`; see the counterexample.) -/
theorem c9_unknown_skill_activation_noop (env : Env) (L : Loader) (st : LoopState)
    (tc : ToolCall)
    (h1 : pyStartsWith tc.name "activate_" = true)
    (h2 : L.skillNames.contains (pyReplace tc.name "activate_" "") = false) :
    dispatchCall env L st tc = .next { st with
      trace := st.trace ++ [.dispatched tc.name],
      messages := st.messages ++ [mkTool tc.id
        ("Error: Skill '" ++ pyReplace tc.name "activate_" "" ++ "' not found.")] } := by
  unfold dispatchCall
  simp only [h1, if_true, h2, Bool.false_eq_true, if_false]
  rfl

/-- C9 witness: `activate_nonexistent_skill` yields the error tool message
and the planning skill stays active. -/
theorem c9_unknown_skill_activation_noop_witness :
    pyStartsWith "activate_nonexistent_skill" "activate_" = true ∧
    sampleLoader.skillNames.contains (pyReplace "activate_nonexistent_skill" "activate_" "") = false ∧
    dispatchCall sampleEnv sampleLoader sampleState ⟨"1", "activate_nonexistent_skill", "\x7b\x7d"⟩ =
      .next { sampleState with
        trace := sampleState.trace ++ [.dispatched "activate_nonexistent_skill"],
        messages := sampleState.messages ++ [mkTool "1"
          ("Error: Skill '" ++ pyReplace "activate_nonexistent_skill" "activate_" "" ++ "' not found.")] } :=
  ⟨by rfl, by rfl,
   c9_unknown_skill_activation_noop sampleEnv sampleLoader sampleState
    ⟨"1", "activate_nonexistent_skill", "\x7b\x7d"⟩ (by rfl) (by rfl)⟩

/-- C9 counterexample: the call `activate_activate_web` has the form
`activate_<name>` with `<name> = "activate_web"`, which is not a loaded
skill — yet because the code deletes every `"activate_"` occurrence, it
activates the `web` skill and changes the active skill, instead of
appending an error and leaving state untouched. -/
theorem c9_counterexample_replace_all :
    pyStartsWith "activate_activate_web" "activate_" = true ∧
    sampleLoader.skillNames.contains "activate_web" = false ∧
    sampleState.activeSkill = some "planning" ∧
    dispatchCall sampleEnv sampleLoader sampleState ⟨"1", "activate_activate_web", "\x7b\x7d"⟩ =
      .next { sampleState with
        activeSkill := some "web",
        activeTools := ["web_tool"],
        trace := [.dispatched "activate_activate_web"],
        messages := sampleState.messages ++ [mkTool "1"
          "Skill 'web' activated.\n\nInstructions:\nUse the web skill.\n\nYou can access tools from this skill."] } :=
  ⟨by rfl, by rfl, by rfl, by rfl⟩

/-! ## Claim C6: run() never throwing -/

/-- C6 (amended): `run` returns a string — a genuine or best-effort answer,
or an `"Error: ..."` string for any exception caught inside the iteration
loop — whenever the designated planning skill is loaded; but the setup before
the loop runs outside the `try`, so when the planning skill is absent the
auto-activation raises a `TypeError` that escapes `run` (see the
counterexample).  Environmental I/O failures of the setup are outside the
model. -/
theorem c6_run_returns_string_when_planning_loaded (env : Env) (L : Loader)
    (sys input : String) (maxIter : Nat)
    (h : L.skillNames.contains "planning" = true) :
    ∃ out, run env L sys input maxIter = .ok out := by
  unfold run activateSkillParts
  rw [h]
  exact ⟨_, rfl⟩

/-- C6 witness: with the planning skill loaded and a model call that fails
outright, `run` still returns (with an error string inside `.ok`). -/
theorem c6_run_returns_string_when_planning_loaded_witness :
    sampleLoader.skillNames.contains "planning" = true ∧
    ∃ out, run { sampleEnv with oracle := fun _ => .failure "boom", isatty := false }
        sampleLoader "sys" "hi" 3 = .ok out :=
  ⟨by rfl, c6_run_returns_string_when_planning_loaded
    { sampleEnv with oracle := fun _ => .failure "boom", isatty := false }
    sampleLoader "sys" "hi" 3 (by rfl)⟩

/-- C6 counterexample: with no `planning` skill loaded, the auto-activation
in the setup raises `TypeError` (`len(None)`) before the loop's `try`, so the
caller gets an exception instead of a string. -/
theorem c6_counterexample_planning_absent :
    run sampleEnv noPlanningLoader "sys" "hi" 5 = .error .typeError := by rfl

/-! ## Claim C7: finalization of link-free answers -/

/-- C7 (amended): for every candidate answer in which the url extraction
finds nothing, finalization never retries (`should_retry = false`) and
returns the answer text unchanged — except that when the report upload
returns a url, the `**Report URL:**` line is appended; the answer is
returned verbatim exactly when the upload yields nothing. -/
theorem c7_link_free_finalization (fin : Bool) (cache : List UrlEntry)
    (judge : String → String → String → Verdict) (catbox : Option String)
    (response : String)
    (h : extractUrlsWithContext response = []) :
    finalizeResponse fin cache judge catbox response =
      match catbox with
      | some u => (response ++ "\n\n**Report URL:** " ++ u ++ "\n", false)
      | none => (response, false) := by
  have hverify : autoVerifyLinks fin cache judge response = (response, false) := by
    unfold autoVerifyLinks finalizeVerifyExecute answerVerifyExecute
    cases fin with
    | false => rfl
    | true =>
      by_cases hre : (response == "") = true
      · simp [hre]
      · simp only [Bool.not_true, if_false, hre, h, List.isEmpty_nil, if_true]
        rfl
  unfold finalizeResponse
  rw [hverify]
  cases catbox <;> rfl

/-- C7 witness: a link-free answer with no report upload is returned
verbatim, with no retry. -/
theorem c7_link_free_finalization_witness :
    extractUrlsWithContext "The capital of France is Paris." = [] ∧
    finalizeResponse true [] sampleEnv.judge none "The capital of France is Paris." =
      ("The capital of France is Paris.", false) :=
  ⟨by rfl, c7_link_free_finalization true [] sampleEnv.judge none
    "The capital of France is Paris." (by rfl)⟩

/-- C7 counterexample: with a successful report upload the finalization step
returns the link-free answer with a `**Report URL:**` line appended — not
the answer text unchanged. -/
theorem c7_counterexample_report_url_appended :
    extractUrlsWithContext "The capital of France is Paris." = [] ∧
    finalizeResponse true [] sampleEnv.judge (some "https://litter.example/r.html")
        "The capital of France is Paris." =
      ("The capital of France is Paris.\n\n**Report URL:** https://litter.example/r.html\n", false) ∧
    ¬ ("The capital of France is Paris.\n\n**Report URL:** https://litter.example/r.html\n" =
        "The capital of France is Paris.") :=
  ⟨by rfl, by rfl, by decide⟩

/-! ## Claim C8: rate-limit handling -/

/-- One interactive rate-limited model call with retries to spare: the loop
sleeps (timing not modelled) and calls again with the retry budget reduced,
recording the call against the same iteration number. -/
theorem tryCalls_retry_step (env : Env) (iterNum callIdx big n : Nat)
    (st : LoopState) (msg : String)
    (hbig : big = n + 1) (hn : 1 ≤ n)
    (htty : env.isatty = true) (hrl : isRateLimit msg = true)
    (h : env.oracle callIdx = .failure msg) :
    tryCalls env iterNum callIdx big st =
      tryCalls env iterNum (callIdx + 1) n
        { st with trace := st.trace ++ [.modelCall iterNum], liveBound := true } := by
  subst hbig
  conv_lhs => unfold tryCalls
  simp only [h, htty, hrl, Bool.and_self, if_true, hn, recordCall, Bool.or_true]

/-- The final interactive rate-limited call with the retry budget exhausted:
the exception is kept to be re-raised. -/
theorem tryCalls_exhausted_step (env : Env) (iterNum callIdx : Nat)
    (st : LoopState) (msg : String)
    (htty : env.isatty = true) (hrl : isRateLimit msg = true)
    (h : env.oracle callIdx = .failure msg) :
    tryCalls env iterNum callIdx 1 st =
      ⟨{ st with trace := st.trace ++ [.modelCall iterNum], liveBound := true },
       callIdx + 1, 1, .error msg⟩ := by
  conv_lhs => unfold tryCalls
  simp only [h, htty, hrl, Bool.and_self, if_true, recordCall, Bool.or_true]
  norm_num

/-- C8 (amended): in interactive (tty) mode, a rate-limited model call is
retried in the same iteration slot — all retry calls carry the same
iteration number and the iteration counter is not advanced — up to 3
retries; when a fourth consecutive rate-limit failure occurs the error is
re-raised, caught by the loop body, and returned to the caller as an
`"Error: ..."` string.  In non-interactive mode there is no retry at all
(see the counterexample); the fixed 60-second backoff is timing and not
modelled. -/
theorem c8_tty_rate_limit_bounded_retry (env : Env) (L : Loader) (st : LoopState)
    (remaining iterNum callIdx : Nat) (msg : String)
    (htty : env.isatty = true)
    (hrl : isRateLimit msg = true)
    (h0 : env.oracle callIdx = .failure msg)
    (h1 : env.oracle (callIdx + 1) = .failure msg)
    (h2 : env.oracle (callIdx + 2) = .failure msg)
    (h3 : env.oracle (callIdx + 3) = .failure msg) :
    runLoop env L (remaining + 1) iterNum callIdx 4 st =
      ("Error: " ++ msg,
       { st with
         liveBound := true,
         trace := st.trace ++ [.modelCall iterNum, .modelCall iterNum,
                               .modelCall iterNum, .modelCall iterNum] }) := by
  have h2a : env.oracle (callIdx + 1 + 1) = .failure msg := by
    have he : callIdx + 1 + 1 = callIdx + 2 := by omega
    rw [he]; exact h2
  have h3a : env.oracle (callIdx + 1 + 1 + 1) = .failure msg := by
    have he : callIdx + 1 + 1 + 1 = callIdx + 3 := by omega
    rw [he]; exact h3
  simp only [runLoop]
  rw [tryCalls_retry_step env iterNum callIdx 4 3 st msg (by norm_num) (by norm_num)
    htty hrl h0]
  rw [tryCalls_retry_step env iterNum (callIdx + 1) 3 2 _ msg (by norm_num) (by norm_num)
    htty hrl h1]
  rw [tryCalls_retry_step env iterNum (callIdx + 1 + 1) 2 1 _ msg (by norm_num) (by norm_num)
    htty hrl h2a]
  rw [tryCalls_exhausted_step env iterNum (callIdx + 1 + 1 + 1) _ msg htty hrl h3a]
  simp [List.append_assoc]

/-- C8 witness: four consecutive rate-limit failures in tty mode yield the
error string after four calls in the same iteration slot. -/
theorem c8_tty_rate_limit_bounded_retry_witness :
    rateLimitEnv.isatty = true ∧ isRateLimit rateLimitMsg = true ∧
    runLoop rateLimitEnv sampleLoader 5 1 0 4 sampleState =
      ("Error: " ++ rateLimitMsg,
       { sampleState with
         liveBound := true,
         trace := sampleState.trace ++ [.modelCall 1, .modelCall 1,
                                        .modelCall 1, .modelCall 1] }) :=
  ⟨by rfl, by rfl,
   c8_tty_rate_limit_bounded_retry rateLimitEnv sampleLoader sampleState
     4 1 0 rateLimitMsg (by rfl) (by rfl) (by rfl) (by rfl) (by rfl) (by rfl)⟩

/-- C8 counterexample: in non-interactive mode a rate-limited model call is
not retried at all — the loop makes exactly one call (the trace holds a
single model-call event) and immediately returns the error string, contrary
to the claim's retry-with-backoff for every rate-limited call. -/
theorem c8_counterexample_no_retry_without_tty :
    isRateLimit rateLimitMsg = true ∧
    run nonTtyRateLimitEnv sampleLoader "sys" "hi" 5 =
      .ok ("Error: " ++ rateLimitMsg,
        { messages := [mkSystem "sys", mkUser "hi", mkAssistant (some
            "Skill 'planning' activated.\n\nInstructions:\nUse the planning skill.\n\nYou can access tools from this skill.")],
          activeSkill := some "planning",
          activeTools := ["planning_tool"],
          scratch := emptyScratch,
          liveBound := false,
          trace := [.modelCall 1] }) :=
  ⟨by rfl, by rfl⟩

/-! ## Claim C5: finalization of an answer citing an uncached url -/

/-- C5 (code bug): for the candidate answer citing `https://ex.example/a`
with an empty cache, the finalize skill's verify script reports the url as
unverifiable and sets `should_research_again = true`, but it labels the
result `"unsupported_citations"` while `_auto_verify_links` only recognises
`"invalid_links_found"` — so finalization returns `should_retry = false` and
the answer is submitted instead of retried. -/
theorem c5_uncached_url_retry_signal_dropped :
    objGet ((objGet (answerVerifyExecute [] sampleEnv.judge c5Response) "result").getD .null)
      "should_research_again" = some (.bool true) ∧
    objGet ((objGet (answerVerifyExecute [] sampleEnv.judge c5Response) "result").getD .null)
      "unsupported_url_list" = some (.arr [.str "https://ex.example/a"]) ∧
    objGet ((objGet (answerVerifyExecute [] sampleEnv.judge c5Response) "result").getD .null)
      "status" = some (.str "unsupported_citations") ∧
    (match objGet ((objGet (answerVerifyExecute [] sampleEnv.judge c5Response) "result").getD .null)
        "report" with
     | some (.str r) => pySubstr "https://ex.example/a" r = true
     | _ => False) ∧
    autoVerifyLinks true [] sampleEnv.judge c5Response = (c5Response, false) ∧
    finalizeResponse true [] sampleEnv.judge none c5Response = (c5Response, false) :=
  ⟨by rfl, by rfl, by rfl, by rfl, by rfl, by rfl⟩

end SkillAgent
